import Mathlib

/-!
# SpecRequirements admission controller

A shallow embedding of `plugin/pkg/admission/specrequirements/admission.go`:
the admission plugin that requires a contact label and CPU/memory requests on
resources written by human users, and copies the contact label into the pod
template of the resource.

Conventions of the embedding.

* A Go map is an optional association list (`none` is the nil map).  The order
  of the list is the order in which a `range` loop visits the entries; Go
  leaves that order unspecified, so statements about it quantify over
  permutations of the list.
* A pointer into the admitted object is modelled by writing the pointee back
  into the object (`storeTemplate`).
* A run-time panic (a failed type assertion, a `reflect` call on a value of
  the wrong kind) is an explicit result: `none` for `GetPodTemplate`,
  `Result.panicked` for `Admit`.
* `Admit` takes label maps and container lists as values.  `AdmitInMemory`
  is the same method on an object with a `Layout`, which says whether the
  label map of the template is the label map of the object and where the two
  container slices lie in their arrays.
-/

namespace specrequirements

/-! ## Strings -/

/-- Lower-casing of one character as `strings.ToLower` does it on ASCII: the
letters `A`..`Z` move to `a`..`z`, everything else stays.  (Go also lower-cases
letters outside ASCII; none of them lower-cases to a letter of `contact`, nor
occurs in an operation name, which are the two places the result is used.) -/
def toLowerRune (c : Char) : Char :=
  if 65 ≤ c.toNat ∧ c.toNat ≤ 90 then Char.ofNat (c.toNat + 32) else c

/-- The function `strings.ToLower`. -/
def ToLower (s : String) : String :=
  String.mk (s.data.map toLowerRune)

/-- Whether `sub` occurs in `s` as a contiguous block, on character lists. -/
def containsChars (s sub : List Char) : Bool :=
  match s with
  | [] => sub.isEmpty
  | c :: rest => sub.isPrefixOf (c :: rest) || containsChars rest sub

/-- The function `strings.Contains`. -/
def Contains (s substr : String) : Bool :=
  containsChars s.data substr.data

/-! ## Go maps -/

/-- A Go map: `none` is the nil map, `some es` a map with the entries `es`,
listed in the order a `range` loop visits them. -/
abbrev GoMap (κ ν : Type) := Option (List (κ × ν))

/-- The comma-ok read `v, ok := m[k]` on the entries of a map. -/
def lookupEntries {κ ν : Type} [DecidableEq κ] (es : List (κ × ν)) (k : κ) : Option ν :=
  match es with
  | [] => none
  | (k', v) :: rest => if k' = k then some v else lookupEntries rest k

/-- The comma-ok read `v, ok := m[k]`; a nil map has no entry. -/
def GoMap.get? {κ ν : Type} [DecidableEq κ] (m : GoMap κ ν) (k : κ) : Option ν :=
  match m with
  | none => none
  | some es => lookupEntries es k

/-- The assignment `m[k] = v` on the entries of a non-nil map: the value of an
existing key is replaced, a new key gets a new entry. -/
def assignEntries {κ ν : Type} [DecidableEq κ] (es : List (κ × ν)) (k : κ) (v : ν) :
    List (κ × ν) :=
  match es with
  | [] => [(k, v)]
  | (k', v') :: rest =>
    if k' = k then (k, v) :: rest else (k', v') :: assignEntries rest k v

/-- The keys of a map. -/
def GoMap.keys {κ ν : Type} (m : GoMap κ ν) : List κ :=
  match m with
  | none => []
  | some es => es.map Prod.fst

/-- A well-formed map holds each key once. -/
def GoMap.WF {κ ν : Type} (m : GoMap κ ν) : Prop :=
  m.keys.Nodup

/-! ## The API objects the plugin reads -/

/-- Modelled from the spec: the constant `api.ResourceCPU` of `pkg/api`, the
reserved resource key `cpu`. -/
def ResourceCPU : String := "cpu"

/-- Modelled from the spec: the constant `api.ResourceMemory` of `pkg/api`,
the reserved resource key `memory`. -/
def ResourceMemory : String := "memory"

/-- Modelled from the spec: `api.Container`, a name and the resource requests
(`Resources.Requests`, a map from resource key to quantity; the quantity is
kept as an integer). -/
structure Container where
  name : String
  requests : GoMap String Int
  deriving DecidableEq, Repr

/-- Modelled from the spec: `api.PodSpec`, the init-containers and the regular
containers. -/
structure PodSpec where
  initContainers : List Container
  containers : List Container
  deriving DecidableEq, Repr

/-- Modelled from the spec: `api.PodTemplateSpec`, the workload template: its
metadata (name and labels) and its pod spec. -/
structure PodTemplateSpec where
  name : String
  labels : GoMap String String
  spec : PodSpec
  deriving DecidableEq, Repr

/-- The zero value `api.PodTemplateSpec{}`. -/
def emptyTemplate : PodTemplateSpec :=
  { name := "", labels := none, spec := { initContainers := [], containers := [] } }

/-- What `reflect` finds under the name `Template` inside a struct `Spec`. -/
inductive TemplateField where
  /-- The struct has no field of that name. -/
  | missing
  /-- A field of type `api.PodTemplateSpec`, as in `batch.JobSpec` and
  `extensions.DeploymentSpec`. -/
  | value (t : PodTemplateSpec)
  /-- A field of type `*api.PodTemplateSpec`; the pointer may be nil. -/
  | pointer (t : Option PodTemplateSpec)
  /-- A field of any other type. -/
  | foreign
  deriving DecidableEq, Repr

/-- What `reflect` finds under the name `Spec` in the object. -/
inductive SpecField where
  /-- The object has no field of that name (a `ConfigMap`). -/
  | missing
  /-- A struct, with what it holds under `Template`. -/
  | struct (template : TemplateField)
  /-- A field that is not a struct (a pointer, a map, a string). -/
  | nonStruct
  deriving DecidableEq, Repr

/-- The dynamic type of the admitted object, as far as `Admit` tells types
apart: `*api.Pod`, on which the type assertion of `Admit` succeeds, or a
pointer to any other struct. -/
inductive ObjectBody where
  | pod (spec : PodSpec)
  | generic (spec : SpecField)
  deriving DecidableEq, Repr

/-- A `runtime.Object`, a pointer to a struct: the labels `meta.Accessor`
reads from it (nil when it has none) and its body. -/
structure Object where
  labels : GoMap String String
  body : ObjectBody
  deriving DecidableEq, Repr

/-- Modelled from the spec: `admission.Operation`, declared in the admission
package; the handler is registered for `Create` and `Update`. -/
inductive Operation where
  | Create
  | Update
  deriving DecidableEq, Repr

/-- The string behind an `admission.Operation`. -/
def Operation.toString : Operation → String
  | .Create => "CREATE"
  | .Update => "UPDATE"

/-- Modelled from the spec: `admission.Attributes`, the request: the name of
the user, the operation, the kind and the object. -/
structure Attributes where
  userName : String
  operation : Operation
  kind : String
  object : Object
  deriving DecidableEq, Repr

/-- What a call of `Admit` ends in: a nil error, the error
`admission.NewForbidden(attributes, errors.New(mess))`, or a run-time panic. -/
inductive Result where
  | allowed
  | forbidden (mess : String)
  | panicked
  deriving DecidableEq, Repr

/-! ## The functions of `admission.go` -/

/-- The loop of `HasContact` over the labels: the value of the first entry
visited whose lower-cased key is `contact`, else the empty string. -/
def contactOf (es : List (String × String)) : String :=
  match es with
  | [] => ""
  | (key, value) :: rest =>
    if ToLower key = "contact" then value else contactOf rest

/-- The function `HasContact`: the contact label of the object, or the empty
string.  Ranging over a nil map visits nothing. -/
def HasContact (resource : Object) : String :=
  match resource.labels with
  | none => ""
  | some es => contactOf es

/-- The function `PropagateLabel`: the label map is made if it is nil, then
`template.Labels["contact"] = contact`. -/
def PropagateLabel (template : PodTemplateSpec) (contact : String) : PodTemplateSpec :=
  let labels : List (String × String) :=
    match template.labels with
    | none => []
    | some es => es
  { template with labels := some (assignEntries labels "contact" contact) }

/-- One turn of the loop of `HasResourceRequests`. -/
def requestsStep (requestsPresent : Bool) (container : Container) : Bool :=
  let requests := container.requests
  let mem := (requests.get? ResourceMemory).isSome
  let cpu := (requests.get? ResourceCPU).isSome
  requestsPresent && mem && cpu

/-- The function `HasResourceRequests`. -/
def HasResourceRequests (containers : List Container) : Bool :=
  containers.foldl requestsStep true

/-- Whether a container has both requests: what one turn of the loop of
`HasResourceRequests` asks of it. -/
def hasBothRequests (c : Container) : Bool :=
  (c.requests.get? ResourceMemory).isSome && (c.requests.get? ResourceCPU).isSome

/-- The function `GetPodTemplate`: the template and whether the object has
one; `none` is a panic.  `FieldByName` panics on a `Spec` that is not a
struct, and the type assertion to `*api.PodTemplateSpec` panics on a
`Template` field of another type. -/
def GetPodTemplate (resource : Object) : Option (PodTemplateSpec × Bool) :=
  match resource.body with
  | .pod _ => some (emptyTemplate, false)
  | .generic .missing => some (emptyTemplate, false)
  | .generic .nonStruct => none
  | .generic (.struct .missing) => some (emptyTemplate, false)
  | .generic (.struct (.value t)) => some (t, true)
  | .generic (.struct (.pointer _)) => none
  | .generic (.struct .foreign) => none

/-- A write through the pointer `GetPodTemplate` returned with `true`: it
addresses the field `Spec.Template` of the object. -/
def storeTemplate (resource : Object) (t : PodTemplateSpec) : Object :=
  match resource.body with
  | .generic (.struct (.value _)) => { resource with body := .generic (.struct (.value t)) }
  | _ => resource

/-- The message of a denial for a missing contact label. -/
def contactMessage (op : Operation) : String :=
  "Cannot " ++ ToLower op.toString ++
    " this resource. It does not have a valid contact label. Please add one and try again."

/-- The message of a denial for missing resource requests. -/
def requestsMessage (op : Operation) : String :=
  "Cannot " ++ ToLower op.toString ++
    " this resource. Some containers do not have resource requests specified. " ++
    "Please add resource requests to every container in the pod spec and try again."

/-- The end of `Admit`, from the test of `requestsPresent` on. -/
def verdict (op : Operation) (requestsPresent : Bool) : Result :=
  if !requestsPresent then .forbidden (requestsMessage op) else .allowed

/-- The method `Admit`: the object as the call leaves it, and the result. -/
def Admit (attributes : Attributes) : Object × Result :=
  if !Contains attributes.userName "admin" then
    (attributes.object, .allowed)
  else
    let contact := HasContact attributes.object
    if contact = "" then
      (attributes.object, .forbidden (contactMessage attributes.operation))
    else
      match GetPodTemplate attributes.object with
      | none => (attributes.object, .panicked)
      | some (template, hasTemplate) =>
        let template := if hasTemplate then PropagateLabel template contact else template
        let object :=
          if hasTemplate then storeTemplate attributes.object template else attributes.object
        if attributes.kind ≠ "Pod" ∧ !hasTemplate then
          (object, .allowed)
        else if attributes.kind = "Pod" then
          match object.body with
          | .pod podSpec =>
            let containers := podSpec.initContainers ++ podSpec.containers
            (object, verdict attributes.operation (HasResourceRequests containers))
          | .generic _ => (object, .panicked)
        else if hasTemplate then
          let containers := template.spec.initContainers ++ template.spec.containers
          (object, verdict attributes.operation (HasResourceRequests containers))
        else
          (object, verdict attributes.operation true)

/-! ## `Admit` on an object whose parts share storage

Maps and slices are references in Go.  `Admit` above takes every label map and
every container list as a value of its own.  What follows adds the two ways in
which the writes of `Admit` reach more than the place they are aimed at: the
label map of the template may be the very map that holds the labels of the
object, and the two container slices of a pod spec may lie in one array. -/

/-- A slice header: where the slice starts among the cells, its length and
its capacity. -/
structure SliceHeader where
  offset : Nat
  len : Nat
  cap : Nat
  deriving DecidableEq, Repr

/-- The elements of a slice. -/
def SliceHeader.read (h : SliceHeader) (cells : List Container) : List Container :=
  (cells.drop h.offset).take h.len

/-- How an object lies in memory, as far as the writes of `Admit` go. -/
structure Layout where
  /-- `Labels` of the template at `Spec.Template` is the very map that is
  `Labels` of the object. -/
  labelsShared : Bool
  /-- The cells of the arrays behind the two container slices of the pod spec
  (of the pod, or of the template), one array after the other. -/
  cells : List Container
  /-- The header of `InitContainers`. -/
  initContainers : SliceHeader
  /-- The header of `Containers`. -/
  containers : SliceHeader
  deriving DecidableEq, Repr

/-- The pod spec whose containers `Admit` checks: that of a pod, or that of
the template at `Spec.Template`. -/
def Object.podSpec? (o : Object) : Option PodSpec :=
  match o.body with
  | .pod podSpec => some podSpec
  | .generic (.struct (.value t)) => some t.spec
  | .generic _ => none

/-- The layout is that of the object: the two slices hold the containers of
its pod spec and lie within the cells, the capacity of `InitContainers`
included, and a label map that is shared is not nil and is the label map of a
template. -/
def Layout.Describes (l : Layout) (o : Object) : Prop :=
  (∀ podSpec, o.podSpec? = some podSpec →
      podSpec.initContainers = l.initContainers.read l.cells ∧
      podSpec.containers = l.containers.read l.cells)
  ∧ l.initContainers.len ≤ l.initContainers.cap
  ∧ l.initContainers.offset + l.initContainers.cap ≤ l.cells.length
  ∧ l.containers.offset + l.containers.len ≤ l.cells.length
  ∧ (l.labelsShared = true →
      ∃ t, o.body = .generic (.struct (.value t)) ∧ t.labels = o.labels ∧ o.labels ≠ none)

/-- The cells `append(InitContainers, Containers...)` would fill are none of
the cells of `Containers`: the capacity of `InitContainers` is too small for
the append to stay in its array, or `Containers` ends before the cells
filled, or it starts after them. -/
def Layout.Separate (l : Layout) : Prop :=
  l.initContainers.cap < l.initContainers.len + l.containers.len
  ∨ l.containers.offset + l.containers.len ≤ l.initContainers.offset + l.initContainers.len
  ∨ l.initContainers.offset + l.initContainers.len + l.containers.len ≤ l.containers.offset

/-- The cells after `append(InitContainers, Containers...)`: when the
capacity of `InitContainers` suffices the elements of `Containers` are copied
behind its last element, else a new array is made and the cells stay. -/
def Layout.appendCells (l : Layout) : List Container :=
  if l.initContainers.len + l.containers.len ≤ l.initContainers.cap then
    let start := l.initContainers.offset + l.initContainers.len
    let added := l.containers.read l.cells
    l.cells.take start ++ added ++ l.cells.drop (start + added.length)
  else
    l.cells

/-- The pod spec the object shows after the append. -/
def Layout.podSpecAfterAppend (l : Layout) : PodSpec :=
  { initContainers := l.initContainers.read l.appendCells,
    containers := l.containers.read l.appendCells }

/-- The pod spec of the object, of a pod or of its template, replaced. -/
def storePodSpec (resource : Object) (podSpec : PodSpec) : Object :=
  match resource.body with
  | .pod _ => { resource with body := .pod podSpec }
  | .generic (.struct (.value t)) =>
    { resource with body := .generic (.struct (.value { t with spec := podSpec })) }
  | .generic _ => resource

/-- The write of `PropagateLabel` through the pointer `GetPodTemplate`
returned with `true`, `before` being the template it found and `after` the
template as `PropagateLabel` leaves it: when the label map written to is the
label map of the object too, the object shows the write in its own labels.  A
nil map is shared with nothing: `PropagateLabel` makes a new map then. -/
def storeTemplateShared (layout : Layout) (resource : Object)
    (before after : PodTemplateSpec) : Object :=
  if layout.labelsShared = true ∧ before.labels ≠ none then
    { storeTemplate resource after with labels := after.labels }
  else
    storeTemplate resource after

/-- The method `Admit` on an object that lies in memory as the layout says:
the object as the call leaves it, and the result. -/
def AdmitInMemory (layout : Layout) (attributes : Attributes) : Object × Result :=
  if !Contains attributes.userName "admin" then
    (attributes.object, .allowed)
  else
    let contact := HasContact attributes.object
    if contact = "" then
      (attributes.object, .forbidden (contactMessage attributes.operation))
    else
      match GetPodTemplate attributes.object with
      | none => (attributes.object, .panicked)
      | some (found, hasTemplate) =>
        let template := if hasTemplate then PropagateLabel found contact else found
        let object :=
          if hasTemplate then storeTemplateShared layout attributes.object found template
          else attributes.object
        if attributes.kind ≠ "Pod" ∧ !hasTemplate then
          (object, .allowed)
        else if attributes.kind = "Pod" then
          match object.body with
          | .pod podSpec =>
            let containers := podSpec.initContainers ++ podSpec.containers
            (storePodSpec object layout.podSpecAfterAppend,
              verdict attributes.operation (HasResourceRequests containers))
          | .generic _ => (object, .panicked)
        else if hasTemplate then
          let containers := template.spec.initContainers ++ template.spec.containers
          (storePodSpec object layout.podSpecAfterAppend,
            verdict attributes.operation (HasResourceRequests containers))
        else
          (object, verdict attributes.operation true)

/-! ## Objects of the tests -/

/-- The labels `contact=hodor` of the tests. -/
def labelsWithContact : GoMap String String := some [("contact", "hodor")]

/-- The requests `bothResourcesMap` of the tests. -/
def bothResourcesMap : GoMap String Int := some [("cpu", 100), ("memory", 200)]

/-- The service without labels of `TestAdmission`. -/
def noContactService : Object :=
  { labels := none, body := .generic (.struct .missing) }

/-- The deployment with a contact label and a container without requests. -/
def deploymentWithContactNoResources : Object :=
  { labels := labelsWithContact,
    body := .generic (.struct (.value
      { name := "", labels := none,
        spec := { initContainers := [],
                  containers := [{ name := "deploymentcontainer1", requests := none }] } })) }

/-- The job with a contact label, template labels and a container with both
requests. -/
def jobWithContactAndResources : Object :=
  { labels := labelsWithContact,
    body := .generic (.struct (.value
      { name := "", labels := some [("app", "study"), ("project", "infra")],
        spec := { initContainers := [],
                  containers := [{ name := "jobcontainer1", requests := bothResourcesMap }] } })) }

/-- The config map with a contact label. -/
def configMap : Object :=
  { labels := labelsWithContact, body := .generic .missing }

/-- A pod with a contact label whose one container requests CPU only. -/
def podMemoryMissing : Object :=
  { labels := labelsWithContact,
    body := .pod { initContainers := [],
                   containers := [{ name := "first", requests := some [("cpu", 100)] }] } }

/-- A replication controller with a contact label: in
`api.ReplicationControllerSpec` the field `Template` is a pointer,
`*api.PodTemplateSpec`. -/
def replicationControllerWithContact : Object :=
  { labels := labelsWithContact,
    body := .generic (.struct (.pointer (some
      { name := "", labels := none,
        spec := { initContainers := [],
                  containers := [{ name := "rccontainer1", requests := bothResourcesMap }] } }))) }

/-- A deployment without labels of its own whose template is labelled
`Contact=hodor`, after defaulting: `Labels` of the deployment is the label map
of the template. -/
def deploymentSharingLabels : Object :=
  { labels := some [("Contact", "hodor")],
    body := .generic (.struct (.value
      { name := "", labels := some [("Contact", "hodor")],
        spec := { initContainers := [],
                  containers := [{ name := "container1", requests := bothResourcesMap }] } })) }

/-- The layout of `deploymentSharingLabels`: one label map, no
init-containers, and the one container in an array of its own. -/
def layoutSharingLabels : Layout :=
  { labelsShared := true,
    cells := [{ name := "container1", requests := bothResourcesMap }],
    initContainers := { offset := 0, len := 0, cap := 0 },
    containers := { offset := 0, len := 1, cap := 1 } }

/-- The layout of an object whose label maps and container slices share
nothing: the init-containers in an array they fill, the containers behind
it. -/
def layoutOfValues (podSpec : PodSpec) : Layout :=
  { labelsShared := false,
    cells := podSpec.initContainers ++ podSpec.containers,
    initContainers :=
      { offset := 0, len := podSpec.initContainers.length,
        cap := podSpec.initContainers.length },
    containers :=
      { offset := podSpec.initContainers.length, len := podSpec.containers.length,
        cap := podSpec.containers.length } }

/-- A pod with a contact label whose two container slices lie in one array of
three cells: `InitContainers` is its first cell, with the capacity of the
array, and `Containers` its first two cells. -/
def podOverlappingSlices : Object :=
  { labels := labelsWithContact,
    body := .pod { initContainers := [{ name := "a0", requests := bothResourcesMap }],
                   containers := [{ name := "a0", requests := bothResourcesMap },
                                  { name := "a1", requests := bothResourcesMap }] } }

/-- The layout of `podOverlappingSlices`. -/
def layoutOverlappingSlices : Layout :=
  { labelsShared := false,
    cells := [{ name := "a0", requests := bothResourcesMap },
              { name := "a1", requests := bothResourcesMap },
              { name := "a2", requests := bothResourcesMap }],
    initContainers := { offset := 0, len := 1, cap := 3 },
    containers := { offset := 0, len := 2, cap := 3 } }

/-- The entries a `range` loop over a map visits; none for the nil map. -/
def GoMap.entries {κ ν : Type} (m : GoMap κ ν) : List (κ × ν) :=
  match m with
  | none => []
  | some es => es

/-! ## Strings: what the models compute -/

/-- The containment test finds exactly the contiguous blocks. -/
theorem containsChars_iff (s sub : List Char) :
    containsChars s sub = true ↔ sub <:+: s := by
  induction s with
  | nil =>
    cases sub <;> simp [containsChars]
  | cons c rest ih =>
    rw [containsChars, Bool.or_eq_true, ih, List.isPrefixOf_iff_prefix, List.infix_cons_iff]

/-- The model of `strings.Contains` holds exactly when the string splits
around the substring. -/
theorem Contains_iff (s substr : String) :
    Contains s substr = true ↔ ∃ pre post : String, s = pre ++ substr ++ post := by
  unfold Contains
  rw [containsChars_iff]
  constructor
  · rintro ⟨p, q, h⟩
    refine ⟨String.mk p, String.mk q, ?_⟩
    apply String.ext
    simp [← h]
  · rintro ⟨pre, post, h⟩
    refine ⟨pre.data, post.data, ?_⟩
    simp [h]

/-! ## Go maps: reads after a write -/

theorem lookupEntries_assign_same {κ ν : Type} [DecidableEq κ] (es : List (κ × ν))
    (k : κ) (v : ν) : lookupEntries (assignEntries es k v) k = some v := by
  induction es with
  | nil => simp [assignEntries, lookupEntries]
  | cons e rest ih =>
    obtain ⟨k', v'⟩ := e
    by_cases h : k' = k
    · simp [assignEntries, lookupEntries, h]
    · simp [assignEntries, lookupEntries, h, ih]

theorem lookupEntries_assign_other {κ ν : Type} [DecidableEq κ] (es : List (κ × ν))
    (k j : κ) (v : ν) (hj : j ≠ k) :
    lookupEntries (assignEntries es k v) j = lookupEntries es j := by
  induction es with
  | nil =>
    have : ¬ k = j := fun h => hj h.symm
    simp [assignEntries, lookupEntries, this]
  | cons e rest ih =>
    obtain ⟨k', v'⟩ := e
    by_cases h : k' = k
    · have : ¬ k = j := fun h => hj h.symm
      subst h
      simp [assignEntries, lookupEntries, this]
    · by_cases h' : k' = j
      · subst h'
        simp [assignEntries, lookupEntries, hj]
      · simp [assignEntries, lookupEntries, h, h', ih]

theorem keys_assignEntries {κ ν : Type} [DecidableEq κ] (es : List (κ × ν))
    (k : κ) (v : ν) :
    (assignEntries es k v).map Prod.fst =
      if k ∈ es.map Prod.fst then es.map Prod.fst else es.map Prod.fst ++ [k] := by
  induction es with
  | nil => simp [assignEntries]
  | cons e rest ih =>
    obtain ⟨k', v'⟩ := e
    by_cases h : k' = k
    · subst h
      simp [assignEntries]
    · have h2 : ¬ k = k' := fun e => h e.symm
      simp only [assignEntries, h, if_false, List.map_cons, ih, List.mem_cons, h2, false_or]
      split <;> simp

theorem lookupEntries_isSome_iff {κ ν : Type} [DecidableEq κ] (es : List (κ × ν)) (k : κ) :
    (lookupEntries es k).isSome = true ↔ k ∈ es.map Prod.fst := by
  induction es with
  | nil => simp [lookupEntries]
  | cons e rest ih =>
    obtain ⟨k', v'⟩ := e
    by_cases h : k' = k
    · simp [lookupEntries, h]
    · have h2 : ¬ k = k' := fun e => h e.symm
      simp [lookupEntries, h, h2, ih]

/-! ## The loop of `HasResourceRequests` -/

theorem foldl_requestsStep (cs : List Container) (b : Bool) :
    cs.foldl requestsStep b = (b && cs.all hasBothRequests) := by
  induction cs generalizing b with
  | nil => simp
  | cons c rest ih =>
    rw [List.foldl_cons, ih]
    simp [requestsStep, hasBothRequests, Bool.and_assoc]

theorem HasResourceRequests_eq_all (cs : List Container) :
    HasResourceRequests cs = cs.all hasBothRequests := by
  simp [HasResourceRequests, foldl_requestsStep]

theorem HasResourceRequests_iff (cs : List Container) :
    HasResourceRequests cs = true ↔
      ∀ c ∈ cs, (c.requests.get? "cpu").isSome = true ∧
        (c.requests.get? "memory").isSome = true := by
  rw [HasResourceRequests_eq_all, List.all_eq_true]
  constructor
  · intro h c hc
    have := h c hc
    simp only [hasBothRequests, Bool.and_eq_true] at this
    exact ⟨this.2, this.1⟩
  · intro h c hc
    have := h c hc
    simp only [hasBothRequests, Bool.and_eq_true]
    exact ⟨this.2, this.1⟩

theorem HasResourceRequests_false_iff (cs : List Container) :
    HasResourceRequests cs = false ↔
      ∃ c ∈ cs, c.requests.get? "cpu" = none ∨ c.requests.get? "memory" = none := by
  rw [← Bool.not_eq_true, HasResourceRequests_iff]
  push_neg
  constructor
  · rintro ⟨c, hc, h⟩
    refine ⟨c, hc, ?_⟩
    by_cases h1 : (c.requests.get? "cpu").isSome = true
    · right
      have := h h1
      simpa using this
    · left
      simpa using h1
  · rintro ⟨c, hc, h⟩
    refine ⟨c, hc, fun h1 => ?_⟩
    rcases h with h | h
    · simp [h] at h1
    · simp [h]

/-! ## The loop of `HasContact` -/

theorem contactOf_of_no_match (es : List (String × String))
    (h : ∀ e ∈ es, ToLower e.1 ≠ "contact") : contactOf es = "" := by
  induction es with
  | nil => rfl
  | cons e rest ih =>
    obtain ⟨k, v⟩ := e
    have hk : ToLower k ≠ "contact" := h (k, v) (List.mem_cons_self _ _)
    simp only [contactOf, hk, if_false]
    exact ih (fun e he => h e (List.mem_cons_of_mem _ he))

/-- The loop returns the value of the first entry that passes the test. -/
theorem contactOf_eq_head_filter (es : List (String × String)) :
    contactOf es =
      match es.filter (fun e => decide (ToLower e.1 = "contact")) with
      | [] => ""
      | e :: _ => e.2 := by
  induction es with
  | nil => rfl
  | cons e rest ih =>
    obtain ⟨k, v⟩ := e
    by_cases hk : ToLower k = "contact"
    · simp [contactOf, hk, List.filter_cons]
    · simp [contactOf, hk, List.filter_cons, ih]

/-! ## The operation in a message -/

theorem ToLower_operation (op : Operation) :
    ToLower op.toString = match op with
      | .Create => "create"
      | .Update => "update" := by
  cases op <;> rfl

theorem verdict_true (op : Operation) : verdict op true = .allowed := rfl

theorem verdict_false (op : Operation) :
    verdict op false = .forbidden (requestsMessage op) := rfl

/-! ## The paths of `Admit` -/

/-- `Admit` on a request of a human user whose object has a contact label and
a pod template, under a kind other than `Pod`. -/
theorem Admit_with_template (a : Attributes) (t : PodTemplateSpec)
    (hadmin : Contains a.userName "admin" = true)
    (hcontact : HasContact a.object ≠ "")
    (hkind : a.kind ≠ "Pod")
    (htemplate : GetPodTemplate a.object = some (t, true)) :
    Admit a = (storeTemplate a.object (PropagateLabel t (HasContact a.object)),
      verdict a.operation (HasResourceRequests (t.spec.initContainers ++ t.spec.containers))) := by
  simp [Admit, hadmin, hcontact, hkind, htemplate, PropagateLabel]

/-- `Admit` on a request of a human user whose object is a pod with a contact
label, under the kind `Pod`. -/
theorem Admit_on_pod (a : Attributes) (podSpec : PodSpec)
    (hadmin : Contains a.userName "admin" = true)
    (hcontact : HasContact a.object ≠ "")
    (hkind : a.kind = "Pod")
    (hpod : a.object.body = .pod podSpec) :
    Admit a = (a.object,
      verdict a.operation (HasResourceRequests (podSpec.initContainers ++ podSpec.containers))) := by
  have htemplate : GetPodTemplate a.object = some (emptyTemplate, false) := by
    simp [GetPodTemplate, hpod]
  simp [Admit, hadmin, hcontact, hkind, htemplate, hpod]

/-- The pointer `GetPodTemplate` returns with `true` is the field
`Spec.Template` of the object. -/
theorem body_of_GetPodTemplate_true (o : Object) (t : PodTemplateSpec)
    (h : GetPodTemplate o = some (t, true)) : o.body = .generic (.struct (.value t)) := by
  unfold GetPodTemplate at h
  split at h <;> simp_all

theorem GetPodTemplate_storeTemplate (o : Object) (t t' : PodTemplateSpec)
    (h : GetPodTemplate o = some (t, true)) :
    GetPodTemplate (storeTemplate o t') = some (t', true) := by
  have hb := body_of_GetPodTemplate_true o t h
  simp [storeTemplate, hb, GetPodTemplate]

/-- `Admit` on a request of a human user whose object has a contact label and
a pod template: the label is copied into the template whatever follows. -/
theorem Admit_object_with_template (a : Attributes) (t : PodTemplateSpec)
    (hadmin : Contains a.userName "admin" = true)
    (hcontact : HasContact a.object ≠ "")
    (htemplate : GetPodTemplate a.object = some (t, true)) :
    (Admit a).1 = storeTemplate a.object (PropagateLabel t (HasContact a.object)) := by
  have hb := body_of_GetPodTemplate_true a.object t htemplate
  by_cases hkind : a.kind = "Pod"
  · simp [Admit, hadmin, hcontact, hkind, htemplate, PropagateLabel, storeTemplate, hb]
  · rw [Admit_with_template a t hadmin hcontact hkind htemplate]

/-! ## The claims -/

/-- C1: a request of a user whose name contains `admin`, on an object for
which `HasContact` gives the empty string, is denied whatever the kind, the
template and the containers are; the object is left as it was and the reason
is `Cannot <op> this resource. It does not have a valid contact label. Please
add one and try again.` with the operation in lower case, `create` or
`update`. -/
theorem Admit_denies_missing_contact (a : Attributes)
    (hadmin : Contains a.userName "admin" = true)
    (hcontact : HasContact a.object = "") :
    Admit a = (a.object, Result.forbidden ("Cannot " ++ ToLower a.operation.toString ++
      " this resource. It does not have a valid contact label. Please add one and try again."))
    ∧ ToLower a.operation.toString =
        (match a.operation with
          | .Create => "create"
          | .Update => "update") := by
  refine ⟨?_, ToLower_operation _⟩
  simp [Admit, hadmin, hcontact, contactMessage]

/-- The service without labels of `TestAdmission`, created by `admin`, is
denied for its missing contact label. -/
theorem Admit_denies_missing_contact_witness :
    Admit ⟨"admin", .Create, "Service", noContactService⟩ =
      (noContactService, Result.forbidden
        "Cannot create this resource. It does not have a valid contact label. Please add one and try again.") :=
  (Admit_denies_missing_contact ⟨"admin", .Create, "Service", noContactService⟩ rfl rfl).1

/-- C2: for a request of a user whose name contains `admin`, on an object
with a contact label and a pod template, under a kind other than `Pod`:
`Admit` denies exactly when some container among the init-containers and the
containers of the template has no `cpu` request or no `memory` request, the
reason then is `Cannot <op> this resource. Some containers do not have
resource requests specified. Please add resource requests to every container
in the pod spec and try again.`, and otherwise it allows. -/
theorem Admit_template_requests (a : Attributes) (t : PodTemplateSpec)
    (hadmin : Contains a.userName "admin" = true)
    (hcontact : HasContact a.object ≠ "")
    (hkind : a.kind ≠ "Pod")
    (htemplate : GetPodTemplate a.object = some (t, true)) :
    ((∃ mess, (Admit a).2 = Result.forbidden mess) ↔
      ∃ c ∈ t.spec.initContainers ++ t.spec.containers,
        c.requests.get? "cpu" = none ∨ c.requests.get? "memory" = none)
    ∧ ((∃ c ∈ t.spec.initContainers ++ t.spec.containers,
        c.requests.get? "cpu" = none ∨ c.requests.get? "memory" = none) →
      (Admit a).2 = Result.forbidden ("Cannot " ++ ToLower a.operation.toString ++
        " this resource. Some containers do not have resource requests specified. " ++
        "Please add resource requests to every container in the pod spec and try again."))
    ∧ ((¬ ∃ c ∈ t.spec.initContainers ++ t.spec.containers,
        c.requests.get? "cpu" = none ∨ c.requests.get? "memory" = none) →
      (Admit a).2 = Result.allowed) := by
  rw [Admit_with_template a t hadmin hcontact hkind htemplate, ← HasResourceRequests_false_iff]
  cases h : HasResourceRequests (t.spec.initContainers ++ t.spec.containers) <;>
    simp [verdict, requestsMessage]

/-- The deployment of `TestAdmission` with a contact label and a container
without requests, updated by `admin` under the kind `Job`, is denied for its
missing resource requests. -/
theorem Admit_template_requests_witness :
    (Admit ⟨"admin", .Update, "Job", deploymentWithContactNoResources⟩).2 =
      Result.forbidden ("Cannot update this resource. Some containers do not have resource " ++
        "requests specified. Please add resource requests to every container in the pod spec " ++
        "and try again.") :=
  (Admit_template_requests ⟨"admin", .Update, "Job", deploymentWithContactNoResources⟩
    { name := "", labels := none,
      spec := { initContainers := [],
                containers := [{ name := "deploymentcontainer1", requests := none }] } }
    rfl (by decide) (by decide) rfl).2.1
    ⟨{ name := "deploymentcontainer1", requests := none }, by decide, Or.inl rfl⟩

/-- C3: a request of a user whose name does not contain `admin` is allowed,
for either operation and whatever the labels, the kind, the template and the
resource requests of the object are, and the object is left as it was. -/
theorem Admit_allows_other_users (a : Attributes)
    (hadmin : Contains a.userName "admin" = false) :
    Admit a = (a.object, Result.allowed) := by
  simp [Admit, hadmin]

/-- The user `kubelet` may update the deployment without resource requests,
and the user `Admin` (capital letter) may create the service without labels. -/
theorem Admit_allows_other_users_witness :
    Admit ⟨"kubelet", .Update, "Job", deploymentWithContactNoResources⟩ =
        (deploymentWithContactNoResources, Result.allowed)
    ∧ Admit ⟨"Admin", .Create, "Service", noContactService⟩ =
        (noContactService, Result.allowed) :=
  ⟨Admit_allows_other_users ⟨"kubelet", .Update, "Job", deploymentWithContactNoResources⟩ rfl,
   Admit_allows_other_users ⟨"Admin", .Create, "Service", noContactService⟩ rfl⟩

/-- C4: for a request of a user whose name contains `admin`, under the kind
`Pod`, on a pod with a contact label: `Admit` denies with the reason of the
resource requests exactly when some container among the init-containers and
the containers of the pod itself has no `cpu` request or no `memory` request,
and allows otherwise; no template is found on a pod, and the pod is left as it
was. -/
theorem Admit_pod_requests (a : Attributes) (podSpec : PodSpec)
    (hadmin : Contains a.userName "admin" = true)
    (hcontact : HasContact a.object ≠ "")
    (hkind : a.kind = "Pod")
    (hpod : a.object.body = .pod podSpec) :
    ((Admit a).2 = Result.forbidden ("Cannot " ++ ToLower a.operation.toString ++
        " this resource. Some containers do not have resource requests specified. " ++
        "Please add resource requests to every container in the pod spec and try again.") ↔
      ∃ c ∈ podSpec.initContainers ++ podSpec.containers,
        c.requests.get? "cpu" = none ∨ c.requests.get? "memory" = none)
    ∧ ((¬ ∃ c ∈ podSpec.initContainers ++ podSpec.containers,
        c.requests.get? "cpu" = none ∨ c.requests.get? "memory" = none) →
      (Admit a).2 = Result.allowed)
    ∧ GetPodTemplate a.object = some (emptyTemplate, false)
    ∧ (Admit a).1 = a.object := by
  rw [Admit_on_pod a podSpec hadmin hcontact hkind hpod, ← HasResourceRequests_false_iff]
  refine ⟨?_, ?_, ?_, rfl⟩
  · cases h : HasResourceRequests (podSpec.initContainers ++ podSpec.containers) <;>
      simp [verdict, requestsMessage]
  · cases h : HasResourceRequests (podSpec.initContainers ++ podSpec.containers) <;>
      simp [verdict]
  · simp [GetPodTemplate, hpod]

/-- A pod with a contact label whose one container requests CPU but no memory,
created by `admin`, is denied for its missing resource requests. -/
theorem Admit_pod_requests_witness :
    (Admit ⟨"admin", .Create, "Pod", podMemoryMissing⟩).2 =
      Result.forbidden ("Cannot create this resource. Some containers do not have resource " ++
        "requests specified. Please add resource requests to every container in the pod spec " ++
        "and try again.") :=
  (Admit_pod_requests ⟨"admin", .Create, "Pod", podMemoryMissing⟩
    { initContainers := [],
      containers := [{ name := "first", requests := some [("cpu", 100)] }] }
    rfl (by decide) rfl rfl).1.mpr
    ⟨{ name := "first", requests := some [("cpu", 100)] }, by decide, Or.inr rfl⟩

/-- C5: a request of a user whose name contains `admin`, under a kind other
than `Pod`, on an object with a contact label in which `GetPodTemplate` finds
no template, is allowed, whatever containers the object holds, and the object
is left as it was. -/
theorem Admit_allows_without_template (a : Attributes) (t : PodTemplateSpec)
    (hadmin : Contains a.userName "admin" = true)
    (hcontact : HasContact a.object ≠ "")
    (hkind : a.kind ≠ "Pod")
    (htemplate : GetPodTemplate a.object = some (t, false)) :
    Admit a = (a.object, Result.allowed) := by
  simp [Admit, hadmin, hcontact, hkind, htemplate]

/-- The config map of `TestAdmission` with a contact label, updated by `admin`
under the kind `Job`, is allowed. -/
theorem Admit_allows_without_template_witness :
    Admit ⟨"admin", .Update, "Job", configMap⟩ = (configMap, Result.allowed) :=
  Admit_allows_without_template ⟨"admin", .Update, "Job", configMap⟩ emptyTemplate
    rfl (by decide) (by decide) rfl

/-- C6: for a request of a user whose name contains `admin`, on an object with
the contact value `c`, not empty, and a pod template: in the object as `Admit`
leaves it the labels of the template map `contact` to `c` and every other key
to what they mapped it to before; under a kind other than `Pod` the call ends
allowed or denied for missing resource requests, and the labels are so in both
cases. -/
theorem Admit_propagates_contact (a : Attributes) (t : PodTemplateSpec) (c : String)
    (hadmin : Contains a.userName "admin" = true)
    (hc : HasContact a.object = c)
    (hne : c ≠ "")
    (htemplate : GetPodTemplate a.object = some (t, true)) :
    ∃ t', GetPodTemplate (Admit a).1 = some (t', true)
      ∧ t'.labels.get? "contact" = some c
      ∧ (∀ k, k ≠ "contact" → t'.labels.get? k = t.labels.get? k)
      ∧ (a.kind ≠ "Pod" →
          (Admit a).2 = Result.allowed ∨
          (Admit a).2 = Result.forbidden ("Cannot " ++ ToLower a.operation.toString ++
            " this resource. Some containers do not have resource requests specified. " ++
            "Please add resource requests to every container in the pod spec and try again.")) := by
  have hcontact : HasContact a.object ≠ "" := by rw [hc]; exact hne
  refine ⟨PropagateLabel t c, ?_, ?_, ?_, ?_⟩
  · rw [Admit_object_with_template a t hadmin hcontact htemplate, hc]
    exact GetPodTemplate_storeTemplate _ t _ htemplate
  · simp only [PropagateLabel, GoMap.get?]
    exact lookupEntries_assign_same _ _ _
  · intro k hk
    simp only [PropagateLabel, GoMap.get?]
    rw [lookupEntries_assign_other _ _ _ _ hk]
    cases t.labels <;> rfl
  · intro hkind
    rw [Admit_with_template a t hadmin hcontact hkind htemplate]
    cases HasResourceRequests (t.spec.initContainers ++ t.spec.containers)
    · right; rfl
    · left; rfl

/-- The deployment of `TestAdmission` is denied and its template is labelled
`contact=hodor` all the same; the job of `TestAdmission` is allowed, and its
template keeps `app=study` and `project=infra` and is labelled
`contact=hodor`. -/
theorem Admit_propagates_contact_witness :
    ((Admit ⟨"admin", .Update, "Job", deploymentWithContactNoResources⟩).2 ≠ Result.allowed
      ∧ ∃ t', GetPodTemplate (Admit ⟨"admin", .Update, "Job", deploymentWithContactNoResources⟩).1
            = some (t', true)
        ∧ t'.labels.get? "contact" = some "hodor")
    ∧ ((Admit ⟨"admin", .Create, "Job", jobWithContactAndResources⟩).2 = Result.allowed
      ∧ ∃ t', GetPodTemplate (Admit ⟨"admin", .Create, "Job", jobWithContactAndResources⟩).1
            = some (t', true)
        ∧ t'.labels.get? "contact" = some "hodor"
        ∧ t'.labels.get? "app" = some "study"
        ∧ t'.labels.get? "project" = some "infra") :=
  ⟨⟨by decide,
    (Admit_propagates_contact ⟨"admin", .Update, "Job", deploymentWithContactNoResources⟩
      { name := "", labels := none,
        spec := { initContainers := [],
                  containers := [{ name := "deploymentcontainer1", requests := none }] } }
      "hodor" rfl rfl (by decide) rfl).imp (fun _ h => ⟨h.1, h.2.1⟩)⟩,
   ⟨by decide,
    (Admit_propagates_contact ⟨"admin", .Create, "Job", jobWithContactAndResources⟩
      { name := "", labels := some [("app", "study"), ("project", "infra")],
        spec := { initContainers := [],
                  containers := [{ name := "jobcontainer1", requests := bothResourcesMap }] } }
      "hodor" rfl rfl (by decide) rfl).imp
      (fun _ h => ⟨h.1, h.2.1, (h.2.2.1 "app" (by decide)).trans rfl,
        (h.2.2.1 "project" (by decide)).trans rfl⟩)⟩⟩

/-- C7: `HasContact` gives the empty string for an object without labels and
for labels none of whose keys is `contact` in lower case, whatever else they
hold; and for labels with exactly one such key (as `contact`, `Contact`,
`CONTACT` are) it gives the value of that key in whatever order the entries
are visited. -/
theorem HasContact_case_insensitive :
    (∀ b : ObjectBody, HasContact ⟨none, b⟩ = "")
    ∧ (∀ (es : List (String × String)) (b : ObjectBody),
        (∀ e ∈ es, ToLower e.1 ≠ "contact") → HasContact ⟨some es, b⟩ = "")
    ∧ (∀ (es visited : List (String × String)) (k v : String) (b : ObjectBody),
        es.filter (fun e => decide (ToLower e.1 = "contact")) = [(k, v)] →
        visited.Perm es → HasContact ⟨some visited, b⟩ = v)
    ∧ ToLower "contact" = "contact" ∧ ToLower "Contact" = "contact"
    ∧ ToLower "CONTACT" = "contact" := by
  refine ⟨fun _ => rfl, fun es _ h => contactOf_of_no_match es h, ?_, rfl, rfl, rfl⟩
  intro es visited k v b hes hperm
  have hfilter : visited.filter (fun e => decide (ToLower e.1 = "contact")) = [(k, v)] := by
    have := hperm.filter (fun e => decide (ToLower e.1 = "contact"))
    rw [hes] at this
    exact List.perm_singleton.mp this
  show contactOf visited = v
  rw [contactOf_eq_head_filter, hfilter]

/-- The labels `app=doorholding`, `Contact=hodor` give `hodor` in both orders
of visit, and the labels `app=doorholding` alone give the empty string. -/
theorem HasContact_case_insensitive_witness :
    HasContact ⟨some [("app", "doorholding"), ("Contact", "hodor")], .generic .missing⟩ = "hodor"
    ∧ HasContact ⟨some [("Contact", "hodor"), ("app", "doorholding")], .generic .missing⟩ = "hodor"
    ∧ HasContact ⟨some [("app", "doorholding")], .generic .missing⟩ = "" :=
  ⟨HasContact_case_insensitive.2.2.1 [("Contact", "hodor"), ("app", "doorholding")]
      [("app", "doorholding"), ("Contact", "hodor")] "Contact" "hodor" _ rfl
      (List.Perm.swap _ _ _),
   HasContact_case_insensitive.2.2.1 [("Contact", "hodor"), ("app", "doorholding")]
      [("Contact", "hodor"), ("app", "doorholding")] "Contact" "hodor" _ rfl
      (List.Perm.refl _),
   HasContact_case_insensitive.2.1 [("app", "doorholding")] _ (by decide)⟩

/-- C8: `HasResourceRequests` is true of the empty sequence; of any sequence
it is true exactly when every container has a `cpu` request and a `memory`
request; so it is false of a sequence that holds, at any place, a container
without one of the two. -/
theorem HasResourceRequests_all_present :
    HasResourceRequests [] = true
    ∧ (∀ cs : List Container, HasResourceRequests cs = true ↔
        ∀ c ∈ cs, (c.requests.get? "cpu").isSome = true ∧
          (c.requests.get? "memory").isSome = true)
    ∧ (∀ (xs ys : List Container) (c : Container),
        c.requests.get? "cpu" = none ∨ c.requests.get? "memory" = none →
        HasResourceRequests (xs ++ c :: ys) = false) := by
  refine ⟨rfl, HasResourceRequests_iff, ?_⟩
  intro xs ys c hc
  rw [HasResourceRequests_false_iff]
  exact ⟨c, by simp, hc⟩

/-- The five sequences of `TestHasResourceRequests`. -/
theorem HasResourceRequests_all_present_witness :
    HasResourceRequests [⟨"first", bothResourcesMap⟩, ⟨"second", bothResourcesMap⟩] = true
    ∧ HasResourceRequests [⟨"first", none⟩, ⟨"second", none⟩] = false
    ∧ HasResourceRequests [⟨"first", bothResourcesMap⟩, ⟨"second", none⟩] = false
    ∧ HasResourceRequests [⟨"first", some [("cpu", 100)]⟩, ⟨"second", none⟩] = false
    ∧ HasResourceRequests [⟨"first", none⟩, ⟨"second", some [("memory", 200)]⟩] = false :=
  ⟨(HasResourceRequests_all_present.2.1 _).mpr (by decide),
   HasResourceRequests_all_present.2.2 [] [⟨"second", none⟩] ⟨"first", none⟩ (Or.inl rfl),
   HasResourceRequests_all_present.2.2 [⟨"first", bothResourcesMap⟩] [] ⟨"second", none⟩
     (Or.inl rfl),
   HasResourceRequests_all_present.2.2 [] [⟨"second", none⟩] ⟨"first", some [("cpu", 100)]⟩
     (Or.inr rfl),
   HasResourceRequests_all_present.2.2 [⟨"first", none⟩] [] ⟨"second", some [("memory", 200)]⟩
     (Or.inl rfl)⟩

/-- C9: after `PropagateLabel` the label map of the template is not nil, maps
`contact` to the value given, maps every other key to what it mapped it to
before, and has the keys it had before and, if it was not among them,
`contact`; the name and the pod spec of the template, with its containers and
init-containers, are as before. -/
theorem PropagateLabel_upserts_contact (t : PodTemplateSpec) (v : String) :
    (PropagateLabel t v).labels ≠ none
    ∧ (PropagateLabel t v).labels.get? "contact" = some v
    ∧ (∀ k, k ≠ "contact" → (PropagateLabel t v).labels.get? k = t.labels.get? k)
    ∧ (PropagateLabel t v).labels.keys =
        (if "contact" ∈ t.labels.keys then t.labels.keys else t.labels.keys ++ ["contact"])
    ∧ (PropagateLabel t v).spec = t.spec
    ∧ (PropagateLabel t v).name = t.name := by
  refine ⟨by simp [PropagateLabel], ?_, ?_, ?_, rfl, rfl⟩
  · simp only [PropagateLabel, GoMap.get?]
    exact lookupEntries_assign_same _ _ _
  · intro k hk
    simp only [PropagateLabel, GoMap.get?]
    rw [lookupEntries_assign_other _ _ _ _ hk]
    cases t.labels <;> rfl
  · simp only [PropagateLabel, GoMap.keys]
    rw [keys_assignEntries]
    cases t.labels <;> rfl

/-- C10: `GetPodTemplate` returns the template at `Spec.Template` and `true`
for an object whose `Spec` is a struct with a field `Template` of type
`api.PodTemplateSpec` (a job, a deployment), and the empty template and
`false` for an object without a field `Spec` (a config map), for one whose
struct `Spec` has no field `Template` (a service), and for a pod. -/
theorem GetPodTemplate_finds_template :
    (∀ (labels : GoMap String String) (t : PodTemplateSpec),
        GetPodTemplate ⟨labels, .generic (.struct (.value t))⟩ = some (t, true))
    ∧ (∀ labels : GoMap String String,
        GetPodTemplate ⟨labels, .generic .missing⟩ = some (emptyTemplate, false))
    ∧ (∀ labels : GoMap String String,
        GetPodTemplate ⟨labels, .generic (.struct .missing)⟩ = some (emptyTemplate, false))
    ∧ (∀ (labels : GoMap String String) (podSpec : PodSpec),
        GetPodTemplate ⟨labels, .pod podSpec⟩ = some (emptyTemplate, false))
    ∧ emptyTemplate = ⟨"", none, ⟨[], []⟩⟩ :=
  ⟨fun _ _ => rfl, fun _ => rfl, fun _ => rfl, fun _ _ => rfl, rfl⟩

/-! ## More on maps and on the paths of `Admit` -/

/-- The keys after `PropagateLabel`. -/
theorem keys_PropagateLabel (t : PodTemplateSpec) (v : String) :
    (PropagateLabel t v).labels.keys =
      (if "contact" ∈ t.labels.keys then t.labels.keys else t.labels.keys ++ ["contact"]) := by
  simp only [PropagateLabel, GoMap.keys]
  rw [keys_assignEntries]
  cases t.labels <;> rfl

/-- A read of a key other than `contact` after `PropagateLabel`. -/
theorem get?_PropagateLabel_of_ne (t : PodTemplateSpec) (v k : String)
    (hk : k ≠ "contact") : (PropagateLabel t v).labels.get? k = t.labels.get? k := by
  simp only [PropagateLabel, GoMap.get?]
  rw [lookupEntries_assign_other _ _ _ _ hk]
  cases t.labels <;> rfl

theorem GoMap.get?_isSome_iff {κ ν : Type} [DecidableEq κ] (m : GoMap κ ν) (k : κ) :
    (m.get? k).isSome = true ↔ k ∈ m.keys := by
  cases m with
  | none => simp [GoMap.get?, GoMap.keys]
  | some es => exact lookupEntries_isSome_iff es k

theorem assignEntries_assignEntries {κ ν : Type} [DecidableEq κ] (es : List (κ × ν))
    (k : κ) (v : ν) : assignEntries (assignEntries es k v) k v = assignEntries es k v := by
  induction es with
  | nil => simp [assignEntries]
  | cons e rest ih =>
    obtain ⟨k', v'⟩ := e
    by_cases h : k' = k
    · simp [assignEntries, h]
    · simp [assignEntries, h, ih]

theorem PropagateLabel_PropagateLabel (t : PodTemplateSpec) (v : String) :
    PropagateLabel (PropagateLabel t v) v = PropagateLabel t v := by
  simp [PropagateLabel, assignEntries_assignEntries]

theorem labels_storeTemplate (o : Object) (t : PodTemplateSpec) :
    (storeTemplate o t).labels = o.labels := by
  unfold storeTemplate
  split <;> rfl

/-- `Admit` on a request of a human user under the kind `Pod` whose object has
a contact label and a pod template: the label is copied, then the type
assertion to `*api.Pod` panics. -/
theorem Admit_pod_kind_with_template (a : Attributes) (t : PodTemplateSpec)
    (hadmin : Contains a.userName "admin" = true)
    (hcontact : HasContact a.object ≠ "")
    (hkind : a.kind = "Pod")
    (htemplate : GetPodTemplate a.object = some (t, true)) :
    Admit a = (storeTemplate a.object (PropagateLabel t (HasContact a.object)),
      Result.panicked) := by
  have hb := body_of_GetPodTemplate_true a.object t htemplate
  simp [Admit, hadmin, hcontact, hkind, htemplate, PropagateLabel, storeTemplate, hb]

/-- `Admit` leaves the object as it was unless the user is human, the object
has a contact label and `GetPodTemplate` finds a template. -/
theorem Admit_object_unchanged (a : Attributes)
    (h : Contains a.userName "admin" = false ∨ HasContact a.object = "" ∨
      ∀ t, GetPodTemplate a.object ≠ some (t, true)) :
    (Admit a).1 = a.object := by
  by_cases hadmin : Contains a.userName "admin" = true
  swap
  · simp [Admit, hadmin]
  by_cases hcontact : HasContact a.object = ""
  · simp [Admit, hadmin, hcontact]
  have hno : ∀ t, GetPodTemplate a.object ≠ some (t, true) := by
    rcases h with h | h | h
    · rw [hadmin] at h; cases h
    · exact absurd h hcontact
    · exact h
  cases hg : GetPodTemplate a.object with
  | none => simp [Admit, hadmin, hcontact, hg]
  | some r =>
    obtain ⟨t, b⟩ := r
    cases b with
    | true => exact absurd hg (hno t)
    | false =>
      simp only [Admit, hadmin, hcontact, hg]
      by_cases hkind : a.kind = "Pod"
      · simp only [hkind]
        simp only [ne_eq, not_true_eq_false, false_and, if_false, if_true, Bool.false_eq_true]
        cases a.object.body <;> rfl
      · simp [hkind]

theorem HasResourceRequests_append_eq (xs ys : List Container) :
    HasResourceRequests (xs ++ ys) = (HasResourceRequests xs && HasResourceRequests ys) := by
  simp [HasResourceRequests_eq_all, List.all_append]

theorem HasResourceRequests_append_comm (xs ys : List Container) :
    HasResourceRequests (xs ++ ys) = HasResourceRequests (ys ++ xs) := by
  rw [HasResourceRequests_append_eq, HasResourceRequests_append_eq, Bool.and_comm]

/-- What `Admit` answers on a pod. -/
theorem Admit_result_on_pod (userName : String) (op : Operation) (kind : String)
    (labels : GoMap String String) (podSpec : PodSpec) :
    (Admit ⟨userName, op, kind, ⟨labels, .pod podSpec⟩⟩).2 =
      if Contains userName "admin" = false then Result.allowed
      else if HasContact ⟨labels, .pod podSpec⟩ = "" then Result.forbidden (contactMessage op)
      else if kind = "Pod" then
        verdict op (HasResourceRequests (podSpec.initContainers ++ podSpec.containers))
      else Result.allowed := by
  by_cases hadmin : Contains userName "admin" = true
  swap
  · simp [Admit, hadmin]
  by_cases hcontact : HasContact ⟨labels, .pod podSpec⟩ = ""
  · simp [Admit, hadmin, hcontact]
  by_cases hkind : kind = "Pod"
  · rw [Admit_on_pod ⟨userName, op, kind, ⟨labels, .pod podSpec⟩⟩ podSpec hadmin hcontact
      hkind rfl]
    simp [hadmin, hcontact, hkind]
  · simp [Admit, hadmin, hcontact, hkind, GetPodTemplate]

/-- What `Admit` answers on an object with a pod template. -/
theorem Admit_result_on_template (userName : String) (op : Operation) (kind : String)
    (labels : GoMap String String) (t : PodTemplateSpec) :
    (Admit ⟨userName, op, kind, ⟨labels, .generic (.struct (.value t))⟩⟩).2 =
      if Contains userName "admin" = false then Result.allowed
      else if HasContact ⟨labels, .generic (.struct (.value t))⟩ = "" then
        Result.forbidden (contactMessage op)
      else if kind = "Pod" then Result.panicked
      else verdict op (HasResourceRequests (t.spec.initContainers ++ t.spec.containers)) := by
  by_cases hadmin : Contains userName "admin" = true
  swap
  · simp [Admit, hadmin]
  by_cases hcontact : HasContact ⟨labels, .generic (.struct (.value t))⟩ = ""
  · simp [Admit, hadmin, hcontact]
  by_cases hkind : kind = "Pod"
  · rw [Admit_pod_kind_with_template
      ⟨userName, op, kind, ⟨labels, .generic (.struct (.value t))⟩⟩ t hadmin hcontact hkind rfl]
    simp [hadmin, hcontact, hkind]
  · rw [Admit_with_template
      ⟨userName, op, kind, ⟨labels, .generic (.struct (.value t))⟩⟩ t hadmin hcontact hkind rfl]
    simp [hadmin, hcontact, hkind]

/-- With one contact key among the entries, the loop of `HasContact` gives its
value in whatever order the entries are visited. -/
theorem contactOf_of_perm_unique (es visited : List (String × String)) (k v : String)
    (hes : es.filter (fun e => decide (ToLower e.1 = "contact")) = [(k, v)])
    (hperm : visited.Perm es) : contactOf visited = v := by
  have hfilter : visited.filter (fun e => decide (ToLower e.1 = "contact")) = [(k, v)] := by
    have := hperm.filter (fun e => decide (ToLower e.1 = "contact"))
    rw [hes] at this
    exact List.perm_singleton.mp this
  rw [contactOf_eq_head_filter, hfilter]

/-- The loop of `HasContact` reads back an assigned `contact` when no other
spelling of the key is there. -/
theorem contactOf_assignEntries (es : List (String × String)) (v : String)
    (h : ∀ e ∈ es, ToLower e.1 = "contact" → e.1 = "contact") :
    contactOf (assignEntries es "contact" v) = v := by
  induction es with
  | nil => rfl
  | cons e rest ih =>
    obtain ⟨k, w⟩ := e
    by_cases hk : k = "contact"
    · subst hk
      simp only [assignEntries, if_true, contactOf]
      rfl
    · have hlow : ToLower k ≠ "contact" := fun hl => hk (h (k, w) (List.mem_cons_self _ _) hl)
      simp only [assignEntries, hk, if_false, contactOf, hlow]
      exact ih (fun e he => h e (List.mem_cons_of_mem _ he))

/-- After the assignment of `contact` to a map without another spelling of
the key, one entry is a contact entry. -/
theorem filter_assignEntries (es : List (String × String)) (v : String)
    (hnodup : (es.map Prod.fst).Nodup)
    (h : ∀ e ∈ es, ToLower e.1 = "contact" → e.1 = "contact") :
    (assignEntries es "contact" v).filter (fun e => decide (ToLower e.1 = "contact")) =
      [("contact", v)] := by
  induction es with
  | nil => rfl
  | cons e rest ih =>
    obtain ⟨k, w⟩ := e
    rw [List.map_cons, List.nodup_cons] at hnodup
    by_cases hk : k = "contact"
    · subst hk
      have hrest : rest.filter (fun e => decide (ToLower e.1 = "contact")) = [] := by
        rw [List.filter_eq_nil_iff]
        intro e he hl
        have hl' : ToLower e.1 = "contact" := by simpa using hl
        have := h e (List.mem_cons_of_mem _ he) hl'
        have hmem : e.1 ∈ rest.map Prod.fst := List.mem_map_of_mem Prod.fst he
        rw [this] at hmem
        exact hnodup.1 hmem
      have hc : ToLower "contact" = "contact" := rfl
      simp only [assignEntries, if_true, List.filter_cons, hc, decide_True, hrest]
    · have hlow : ToLower k ≠ "contact" := fun hl => hk (h (k, w) (List.mem_cons_self _ _) hl)
      simp only [assignEntries, hk, if_false, List.filter_cons, hlow, decide_False,
        Bool.false_eq_true]
      exact ih hnodup.2 (fun e he => h e (List.mem_cons_of_mem _ he))

/-! ## Writes into shared storage -/

/-- Cells written behind a window leave the window as it was. -/
theorem read_overwrite_of_before {α : Type} (cells added : List α) (start off len : Nat)
    (hbound : start + added.length ≤ cells.length) (h : off + len ≤ start) :
    ((cells.take start ++ added ++ cells.drop (start + added.length)).drop off).take len =
      (cells.drop off).take len := by
  apply List.ext_getElem?
  intro i
  simp only [List.getElem?_take, List.getElem?_drop]
  split
  · rw [List.append_assoc, List.getElem?_append_left (by simp; omega)]
    rw [List.getElem?_take]
    simp; omega
  · rfl

/-- Cells written before a window leave the window as it was. -/
theorem read_overwrite_of_after {α : Type} (cells added : List α) (start off len : Nat)
    (hbound : start + added.length ≤ cells.length) (h : start + added.length ≤ off) :
    ((cells.take start ++ added ++ cells.drop (start + added.length)).drop off).take len =
      (cells.drop off).take len := by
  apply List.ext_getElem?
  intro i
  simp only [List.getElem?_take, List.getElem?_drop]
  split
  · rw [List.getElem?_append_right (by simp; omega)]
    rw [List.getElem?_drop]
    congr 1
    simp
    omega
  · rfl

theorem length_read (h : SliceHeader) (cells : List Container)
    (hb : h.offset + h.len ≤ cells.length) : (h.read cells).length = h.len := by
  simp [SliceHeader.read]
  omega

/-- The append never writes into the elements of `InitContainers`. -/
theorem read_initContainers_appendCells (l : Layout) (o : Object) (hd : l.Describes o) :
    l.initContainers.read l.appendCells = l.initContainers.read l.cells := by
  obtain ⟨_, _, hcap, hcont, _⟩ := hd
  unfold Layout.appendCells
  split
  · have hlen := length_read l.containers l.cells hcont
    simp only [SliceHeader.read] at hlen ⊢
    exact read_overwrite_of_before _ _ _ _ _ (by rw [hlen]; omega) (le_refl _)
  · rfl

/-- The append leaves the elements of `Containers` as they were when it fills
none of their cells. -/
theorem read_containers_appendCells (l : Layout) (o : Object) (hd : l.Describes o)
    (hs : l.Separate) :
    l.containers.read l.appendCells = l.containers.read l.cells := by
  obtain ⟨_, _, hcap, hcont, _⟩ := hd
  unfold Layout.appendCells
  split
  · rename_i hfit
    have hlen := length_read l.containers l.cells hcont
    simp only [SliceHeader.read] at hlen ⊢
    rcases hs with hs | hs | hs
    · omega
    · exact read_overwrite_of_before _ _ _ _ _ (by rw [hlen]; omega) hs
    · exact read_overwrite_of_after _ _ _ _ _ (by rw [hlen]; omega) (by rw [hlen]; omega)
  · rfl

theorem podSpecAfterAppend_eq (l : Layout) (o : Object) (podSpec : PodSpec)
    (hd : l.Describes o) (hs : l.Separate) (h : o.podSpec? = some podSpec) :
    l.podSpecAfterAppend = podSpec := by
  obtain ⟨hinit, hcont⟩ := hd.1 podSpec h
  simp only [Layout.podSpecAfterAppend, read_initContainers_appendCells l o hd,
    read_containers_appendCells l o hd hs, ← hinit, ← hcont]

theorem initContainers_podSpecAfterAppend (l : Layout) (o : Object) (podSpec : PodSpec)
    (hd : l.Describes o) (h : o.podSpec? = some podSpec) :
    l.podSpecAfterAppend.initContainers = podSpec.initContainers := by
  simp only [Layout.podSpecAfterAppend, read_initContainers_appendCells l o hd, (hd.1 podSpec h).1]

theorem labels_storePodSpec (o : Object) (podSpec : PodSpec) :
    (storePodSpec o podSpec).labels = o.labels := by
  unfold storePodSpec
  split <;> rfl

theorem storePodSpec_of_podSpec? (o : Object) (podSpec : PodSpec)
    (h : o.podSpec? = some podSpec) : storePodSpec o podSpec = o := by
  obtain ⟨labels, body⟩ := o
  cases body with
  | pod p =>
    simp only [Object.podSpec?, Option.some.injEq] at h
    subst h
    rfl
  | generic spec =>
    cases spec with
    | struct template =>
      cases template with
      | value t =>
        simp only [Object.podSpec?, Option.some.injEq] at h
        subst h
        rfl
      | missing => rfl
      | pointer _ => rfl
      | foreign => rfl
    | missing => rfl
    | nonStruct => rfl

/-! ## The paths of `AdmitInMemory` -/

/-- Before `GetPodTemplate` is called nothing is written. -/
theorem AdmitInMemory_early (l : Layout) (a : Attributes)
    (h : Contains a.userName "admin" = false ∨ HasContact a.object = "") :
    AdmitInMemory l a = Admit a ∧ (AdmitInMemory l a).1 = a.object := by
  rcases h with h | h
  · simp [AdmitInMemory, Admit, h]
  · by_cases hadmin : Contains a.userName "admin" = true
    · simp [AdmitInMemory, Admit, h, hadmin]
    · simp [AdmitInMemory, Admit, hadmin]

/-- `AdmitInMemory` on a request of a human user whose object has a contact
label and a pod template, under a kind other than `Pod`. -/
theorem AdmitInMemory_with_template (l : Layout) (a : Attributes) (t : PodTemplateSpec)
    (hadmin : Contains a.userName "admin" = true)
    (hcontact : HasContact a.object ≠ "")
    (hkind : a.kind ≠ "Pod")
    (htemplate : GetPodTemplate a.object = some (t, true)) :
    AdmitInMemory l a =
      (storePodSpec
        (storeTemplateShared l a.object t (PropagateLabel t (HasContact a.object)))
        l.podSpecAfterAppend,
      verdict a.operation (HasResourceRequests (t.spec.initContainers ++ t.spec.containers))) := by
  simp [AdmitInMemory, hadmin, hcontact, hkind, htemplate, PropagateLabel]

theorem body_storeTemplateShared (l : Layout) (o : Object) (t t' : PodTemplateSpec)
    (hb : o.body = .generic (.struct (.value t))) :
    (storeTemplateShared l o t t').body = .generic (.struct (.value t')) := by
  unfold storeTemplateShared
  split <;> simp [storeTemplate, hb]

theorem labels_storeTemplateShared (l : Layout) (o : Object) (t t' : PodTemplateSpec) :
    (storeTemplateShared l o t t').labels =
      if l.labelsShared = true ∧ t.labels ≠ none then t'.labels else o.labels := by
  unfold storeTemplateShared
  split
  · rfl
  · exact labels_storeTemplate o t'

/-- `AdmitInMemory` on a request of a human user under the kind `Pod` whose
object has a contact label and a pod template. -/
theorem AdmitInMemory_pod_kind_with_template (l : Layout) (a : Attributes)
    (t : PodTemplateSpec)
    (hadmin : Contains a.userName "admin" = true)
    (hcontact : HasContact a.object ≠ "")
    (hkind : a.kind = "Pod")
    (htemplate : GetPodTemplate a.object = some (t, true)) :
    AdmitInMemory l a =
      (storeTemplateShared l a.object t (PropagateLabel t (HasContact a.object)),
        Result.panicked) := by
  have hb := body_of_GetPodTemplate_true a.object t htemplate
  have hb' := body_storeTemplateShared l a.object t (PropagateLabel t (HasContact a.object)) hb
  simp only [AdmitInMemory, hadmin, hcontact, hkind, htemplate]
  simp only [Bool.not_true, Bool.false_eq_true, if_false, if_true, ne_eq, not_true_eq_false,
    false_and, hb']

/-- `AdmitInMemory` on a request of a human user whose object has a contact
label and no pod template found: the object is left as it was, but for the
append on a pod. -/
theorem AdmitInMemory_without_template (l : Layout) (a : Attributes)
    (hadmin : Contains a.userName "admin" = true)
    (hcontact : HasContact a.object ≠ "")
    (hno : ∀ t, GetPodTemplate a.object ≠ some (t, true)) :
    (AdmitInMemory l a).1 = a.object ∨
      ((∃ podSpec, a.object.body = .pod podSpec) ∧
        (AdmitInMemory l a).1 = storePodSpec a.object l.podSpecAfterAppend) := by
  cases hg : GetPodTemplate a.object with
  | none => left; simp [AdmitInMemory, hadmin, hcontact, hg]
  | some r =>
    obtain ⟨t, b⟩ := r
    cases b with
    | true => exact absurd hg (hno t)
    | false =>
      by_cases hkind : a.kind = "Pod"
      · cases hb : a.object.body with
        | pod podSpec =>
          right
          refine ⟨⟨podSpec, rfl⟩, ?_⟩
          simp [AdmitInMemory, hadmin, hcontact, hg, hkind, hb]
        | generic spec =>
          left
          simp [AdmitInMemory, hadmin, hcontact, hg, hkind, hb]
      · left
        simp [AdmitInMemory, hadmin, hcontact, hg, hkind]

/-- The result of `Admit` does not depend on how the object lies in memory. -/
theorem result_AdmitInMemory (l : Layout) (a : Attributes) :
    (AdmitInMemory l a).2 = (Admit a).2 := by
  by_cases hearly : Contains a.userName "admin" = false ∨ HasContact a.object = ""
  · rw [(AdmitInMemory_early l a hearly).1]
  · push_neg at hearly
    obtain ⟨hadmin, hcontact⟩ := hearly
    have hadmin : Contains a.userName "admin" = true := by simpa using hadmin
    cases hg : GetPodTemplate a.object with
    | none => simp [AdmitInMemory, Admit, hadmin, hcontact, hg]
    | some r =>
      obtain ⟨t, b⟩ := r
      cases b with
      | true =>
        by_cases hkind : a.kind = "Pod"
        · rw [AdmitInMemory_pod_kind_with_template l a t hadmin hcontact hkind hg,
            Admit_pod_kind_with_template a t hadmin hcontact hkind hg]
        · rw [AdmitInMemory_with_template l a t hadmin hcontact hkind hg,
            Admit_with_template a t hadmin hcontact hkind hg]
      | false =>
        by_cases hkind : a.kind = "Pod"
        · cases hb : a.object.body <;>
            simp [AdmitInMemory, Admit, hadmin, hcontact, hg, hkind, hb]
        · simp [AdmitInMemory, Admit, hadmin, hcontact, hg, hkind]

/-- The object `AdmitInMemory` leaves: the object as it was, or the pod after
the append, or the object after the write of `PropagateLabel`, with or without
the append after it. -/
theorem object_AdmitInMemory (l : Layout) (a : Attributes) :
    (AdmitInMemory l a).1 = a.object
    ∨ ((∃ podSpec, a.object.body = .pod podSpec)
        ∧ (AdmitInMemory l a).1 = storePodSpec a.object l.podSpecAfterAppend)
    ∨ (∃ t, GetPodTemplate a.object = some (t, true)
        ∧ Contains a.userName "admin" = true ∧ HasContact a.object ≠ ""
        ∧ ((AdmitInMemory l a).1 =
              storeTemplateShared l a.object t (PropagateLabel t (HasContact a.object))
          ∨ (AdmitInMemory l a).1 =
              storePodSpec
                (storeTemplateShared l a.object t (PropagateLabel t (HasContact a.object)))
                l.podSpecAfterAppend)) := by
  by_cases hearly : Contains a.userName "admin" = false ∨ HasContact a.object = ""
  · exact Or.inl (AdmitInMemory_early l a hearly).2
  · push_neg at hearly
    obtain ⟨hadmin, hcontact⟩ := hearly
    have hadmin : Contains a.userName "admin" = true := by simpa using hadmin
    by_cases hno : ∀ t, GetPodTemplate a.object ≠ some (t, true)
    · rcases AdmitInMemory_without_template l a hadmin hcontact hno with h | h
      · exact Or.inl h
      · exact Or.inr (Or.inl h)
    · push_neg at hno
      obtain ⟨t, ht⟩ := hno
      refine Or.inr (Or.inr ⟨t, ht, hadmin, hcontact, ?_⟩)
      by_cases hkind : a.kind = "Pod"
      · left
        rw [AdmitInMemory_pod_kind_with_template l a t hadmin hcontact hkind ht]
      · right
        rw [AdmitInMemory_with_template l a t hadmin hcontact hkind ht]

theorem Object.eq_of_labels_of_body (o o' : Object) (hl : o'.labels = o.labels)
    (hb : o'.body = o.body) : o' = o := by
  cases o; cases o'
  simp only at hl hb
  rw [hl, hb]

/-- The template is the one template of the object. -/
theorem template_unique (o : Object) (t t' : PodTemplateSpec)
    (ht : GetPodTemplate o = some (t, true))
    (hb : o.body = .generic (.struct (.value t'))) : t' = t := by
  have := body_of_GetPodTemplate_true o t ht
  rw [hb] at this
  simpa using this

/-- Under a layout with separate slices the append leaves the object as it
was. -/
theorem storePodSpec_podSpecAfterAppend (l : Layout) (o o' : Object) (hd : l.Describes o)
    (hs : l.Separate) (hspec : o'.podSpec? = o.podSpec?) :
    storePodSpec o' l.podSpecAfterAppend = o' := by
  cases h : o.podSpec? with
  | some podSpec =>
    rw [podSpecAfterAppend_eq l o podSpec hd hs h]
    exact storePodSpec_of_podSpec? o' podSpec (hspec.trans h)
  | none =>
    rw [h] at hspec
    obtain ⟨labels, body⟩ := o'
    cases body with
    | pod p => simp [Object.podSpec?] at hspec
    | generic spec =>
      cases spec with
      | struct template =>
        cases template with
        | value t => simp [Object.podSpec?] at hspec
        | missing => rfl
        | pointer _ => rfl
        | foreign => rfl
      | missing => rfl
      | nonStruct => rfl

theorem GetPodTemplate_of_body (o : Object) (t : PodTemplateSpec)
    (hb : o.body = .generic (.struct (.value t))) : GetPodTemplate o = some (t, true) := by
  simp [GetPodTemplate, hb]

theorem body_storePodSpec_of_template (o : Object) (t : PodTemplateSpec) (podSpec : PodSpec)
    (hb : o.body = .generic (.struct (.value t))) :
    (storePodSpec o podSpec).body = .generic (.struct (.value { t with spec := podSpec })) := by
  simp [storePodSpec, hb]

theorem storePodSpec_of_pod (o : Object) (p podSpec : PodSpec) (hb : o.body = .pod p) :
    storePodSpec o podSpec = { o with body := .pod podSpec } := by
  simp [storePodSpec, hb]

theorem podSpec?_of_template (o : Object) (t : PodTemplateSpec)
    (hb : o.body = .generic (.struct (.value t))) : o.podSpec? = some t.spec := by
  simp [Object.podSpec?, hb]

theorem podSpec?_of_pod (o : Object) (p : PodSpec) (hb : o.body = .pod p) :
    o.podSpec? = some p := by
  simp [Object.podSpec?, hb]

/-- The labels of the object `AdmitInMemory` leaves: those it had, or, the
label map being shared with the template, those `PropagateLabel` wrote. -/
theorem labels_AdmitInMemory (l : Layout) (a : Attributes) :
    (AdmitInMemory l a).1.labels = a.object.labels
    ∨ (l.labelsShared = true ∧ ∃ t, GetPodTemplate a.object = some (t, true)
        ∧ (AdmitInMemory l a).1.labels = (PropagateLabel t (HasContact a.object)).labels) := by
  rcases object_AdmitInMemory l a with h | ⟨_, h⟩ | ⟨t, ht, _, _, h⟩
  · left; rw [h]
  · left; rw [h, labels_storePodSpec]
  · have hl : (AdmitInMemory l a).1.labels =
        (storeTemplateShared l a.object t (PropagateLabel t (HasContact a.object))).labels := by
      rcases h with h | h
      · rw [h]
      · rw [h, labels_storePodSpec]
    rw [labels_storeTemplateShared] at hl
    by_cases hsh : l.labelsShared = true ∧ t.labels ≠ none
    · rw [if_pos hsh] at hl
      exact Or.inr ⟨hsh.1, t, ht, hl⟩
    · rw [if_neg hsh] at hl
      exact Or.inl hl

theorem describes_layoutSharingLabels :
    layoutSharingLabels.Describes deploymentSharingLabels := by
  refine ⟨?_, by decide, by decide, by decide, fun _ => ⟨_, rfl, rfl, by decide⟩⟩
  intro podSpec h
  simp only [deploymentSharingLabels, Object.podSpec?, Option.some.injEq] at h
  subst h
  exact ⟨rfl, rfl⟩

theorem describes_layoutOfValues (o : Object) (podSpec : PodSpec)
    (h : o.podSpec? = some podSpec) :
    (layoutOfValues podSpec).Describes o ∧ (layoutOfValues podSpec).Separate := by
  refine ⟨⟨?_, le_refl _, ?_, ?_, ?_⟩, ?_⟩
  · intro p hp
    rw [h] at hp
    simp only [Option.some.injEq] at hp
    subst hp
    simp [layoutOfValues, SliceHeader.read]
  · simp [layoutOfValues]
  · simp [layoutOfValues]
  · intro hsh
    simp [layoutOfValues] at hsh
  · by_cases hc : podSpec.containers.length = 0
    · right; right
      simp [layoutOfValues, hc]
    · left
      simp only [layoutOfValues]
      omega

/-- On an object whose label maps and container slices share nothing
`AdmitInMemory` is `Admit`. -/
theorem AdmitInMemory_eq_Admit (l : Layout) (a : Attributes) (hd : l.Describes a.object)
    (hsh : l.labelsShared = false) (hs : l.Separate) : AdmitInMemory l a = Admit a := by
  refine Prod.ext ?_ (result_AdmitInMemory l a)
  by_cases h : Contains a.userName "admin" = false ∨ HasContact a.object = "" ∨
      ∀ t, GetPodTemplate a.object ≠ some (t, true)
  · rw [Admit_object_unchanged a h]
    rcases object_AdmitInMemory l a with h' | ⟨_, h'⟩ | ⟨t, ht, hadmin, hcontact, _⟩
    · exact h'
    · rw [h']
      exact storePodSpec_podSpecAfterAppend l a.object a.object hd hs rfl
    · rcases h with h | h | h
      · rw [hadmin] at h; cases h
      · exact absurd h hcontact
      · exact absurd ht (h t)
  · push_neg at h
    obtain ⟨hadmin, hcontact, t, ht⟩ := h
    have hadmin : Contains a.userName "admin" = true := by simpa using hadmin
    have hb := body_of_GetPodTemplate_true a.object t ht
    have hS : storeTemplateShared l a.object t (PropagateLabel t (HasContact a.object)) =
        storeTemplate a.object (PropagateLabel t (HasContact a.object)) := by
      simp [storeTemplateShared, hsh]
    rw [Admit_object_with_template a t hadmin hcontact ht]
    by_cases hkind : a.kind = "Pod"
    · rw [AdmitInMemory_pod_kind_with_template l a t hadmin hcontact hkind ht, hS]
    · rw [AdmitInMemory_with_template l a t hadmin hcontact hkind ht, hS]
      apply storePodSpec_podSpecAfterAppend l a.object _ hd hs
      simp [Object.podSpec?, storeTemplate, hb, PropagateLabel]

/-- The append on a pod whose `Containers` lie in the cells behind its one
init-container: the second container is overwritten by the first. -/
theorem AdmitInMemory_overlapping_slices :
    layoutOverlappingSlices.Describes podOverlappingSlices
    ∧ ¬ layoutOverlappingSlices.Separate
    ∧ (AdmitInMemory layoutOverlappingSlices
        ⟨"admin", .Create, "Pod", podOverlappingSlices⟩).1 =
      { labels := labelsWithContact,
        body := .pod { initContainers := [{ name := "a0", requests := bothResourcesMap }],
                       containers := [{ name := "a0", requests := bothResourcesMap },
                                      { name := "a0", requests := bothResourcesMap }] } } := by
  refine ⟨⟨?_, by decide, by decide, by decide, fun h => absurd h (by decide)⟩, ?_, rfl⟩
  · intro podSpec h
    simp only [podOverlappingSlices, Object.podSpec?, Option.some.injEq] at h
    subst h
    exact ⟨rfl, rfl⟩
  · simp [Layout.Separate, layoutOverlappingSlices]

/-! ## The claims, continued -/

/-- C11: on a replication controller, whose `Spec` holds under `Template` a
pointer to a template, `GetPodTemplate` panics at its type assertion where
its comment promises an empty template and `false`, and `Admit` panics with
it; so it does on every `Template` field of a type other than
`api.PodTemplateSpec` and on every `Spec` that is not a struct. -/
theorem GetPodTemplate_panics_on_pointer_template :
    GetPodTemplate replicationControllerWithContact = none
    ∧ GetPodTemplate replicationControllerWithContact ≠ some (emptyTemplate, false)
    ∧ Admit ⟨"admin", .Create, "ReplicationController", replicationControllerWithContact⟩ =
        (replicationControllerWithContact, Result.panicked)
    ∧ (∀ (labels : GoMap String String) (t : Option PodTemplateSpec),
        GetPodTemplate ⟨labels, .generic (.struct (.pointer t))⟩ = none)
    ∧ (∀ labels : GoMap String String,
        GetPodTemplate ⟨labels, .generic (.struct .foreign)⟩ = none)
    ∧ (∀ labels : GoMap String String,
        GetPodTemplate ⟨labels, .generic .nonStruct⟩ = none) :=
  ⟨rfl, by decide, rfl, fun _ _ => rfl, fun _ => rfl, fun _ => rfl⟩


/-- C12, as amended: for an object that lies in memory as the layout says,
`Admit` leaves the labels of the object as they were when their map is not the
label map of the template, and otherwise writes `contact` into them with the
template and leaves every other key as it was; in a template it leaves the
name, every label but `contact` and the init-containers as they were, and the
containers too when the append fills none of their cells; a pod keeps its
labels and init-containers, and its containers under the same condition; and
the whole object is as it was when the name of the user does not contain
`admin`, when the contact value is empty, and, the append filling no cell of
the containers or the object being no pod, when `GetPodTemplate` finds no
template. -/
theorem AdmitInMemory_frame (l : Layout) (a : Attributes) (hd : l.Describes a.object) :
    (l.labelsShared = false → (AdmitInMemory l a).1.labels = a.object.labels)
    ∧ (∀ k, k ≠ "contact" →
        (AdmitInMemory l a).1.labels.get? k = a.object.labels.get? k)
    ∧ (l.labelsShared = true → Contains a.userName "admin" = true →
        HasContact a.object ≠ "" →
        (AdmitInMemory l a).1.labels.get? "contact" = some (HasContact a.object))
    ∧ (∀ t, a.object.body = .generic (.struct (.value t)) →
        ∃ t', (AdmitInMemory l a).1.body = .generic (.struct (.value t'))
          ∧ t'.name = t.name
          ∧ (∀ k, k ≠ "contact" → t'.labels.get? k = t.labels.get? k)
          ∧ t'.spec.initContainers = t.spec.initContainers
          ∧ (l.Separate → t'.spec = t.spec))
    ∧ (∀ podSpec, a.object.body = .pod podSpec →
        ∃ podSpec', (AdmitInMemory l a).1 = { a.object with body := .pod podSpec' }
          ∧ podSpec'.initContainers = podSpec.initContainers
          ∧ (l.Separate → podSpec' = podSpec))
    ∧ (Contains a.userName "admin" = false → (AdmitInMemory l a).1 = a.object)
    ∧ (HasContact a.object = "" → (AdmitInMemory l a).1 = a.object)
    ∧ ((∀ t, GetPodTemplate a.object ≠ some (t, true)) →
        (l.Separate ∨ ∀ podSpec, a.object.body ≠ .pod podSpec) →
        (AdmitInMemory l a).1 = a.object) := by
  refine ⟨?_, ?_, ?_, ?_, ?_, fun h => (AdmitInMemory_early l a (Or.inl h)).2,
    fun h => (AdmitInMemory_early l a (Or.inr h)).2, ?_⟩
  · intro hsh
    rcases labels_AdmitInMemory l a with h | ⟨h, _⟩
    · exact h
    · rw [hsh] at h; cases h
  · intro k hk
    rcases labels_AdmitInMemory l a with h | ⟨hsh, t, ht, h⟩
    · rw [h]
    · obtain ⟨t₀, hb, hlabels, _⟩ := hd.2.2.2.2 hsh
      have := template_unique a.object t t₀ ht hb
      subst this
      rw [h, get?_PropagateLabel_of_ne t₀ _ k hk, hlabels]
  · intro hsh hadmin hcontact
    obtain ⟨t, hb, hlabels, hsome⟩ := hd.2.2.2.2 hsh
    have ht := GetPodTemplate_of_body a.object t hb
    have hS : (storeTemplateShared l a.object t
        (PropagateLabel t (HasContact a.object))).labels =
        (PropagateLabel t (HasContact a.object)).labels := by
      rw [labels_storeTemplateShared, if_pos ⟨hsh, by rw [hlabels]; exact hsome⟩]
    have hl : (AdmitInMemory l a).1.labels =
        (PropagateLabel t (HasContact a.object)).labels := by
      by_cases hkind : a.kind = "Pod"
      · rw [AdmitInMemory_pod_kind_with_template l a t hadmin hcontact hkind ht]
        exact hS
      · rw [AdmitInMemory_with_template l a t hadmin hcontact hkind ht]
        simp only [labels_storePodSpec]
        exact hS
    rw [hl]
    simp only [PropagateLabel, GoMap.get?]
    exact lookupEntries_assign_same _ _ _
  · intro t hb
    have hspec := podSpec?_of_template a.object t hb
    rcases object_AdmitInMemory l a with h | ⟨⟨p, hp⟩, _⟩ | ⟨t₁, ht₁, _, _, h⟩
    · exact ⟨t, by rw [h, hb], rfl, fun _ _ => rfl, rfl, fun _ => rfl⟩
    · rw [hb] at hp; cases hp
    · have := template_unique a.object t₁ t ht₁ hb
      subst this
      have hbS := body_storeTemplateShared l a.object t
        (PropagateLabel t (HasContact a.object)) hb
      rcases h with h | h
      · exact ⟨PropagateLabel t (HasContact a.object), by rw [h, hbS], rfl,
          fun k hk => get?_PropagateLabel_of_ne t _ k hk, rfl, fun _ => rfl⟩
      · refine ⟨{ PropagateLabel t (HasContact a.object) with spec := l.podSpecAfterAppend },
          ?_, rfl, fun k hk => get?_PropagateLabel_of_ne t _ k hk, ?_, ?_⟩
        · rw [h]
          exact body_storePodSpec_of_template _ _ _ hbS
        · exact initContainers_podSpecAfterAppend l a.object t.spec hd hspec
        · intro hs
          exact podSpecAfterAppend_eq l a.object t.spec hd hs hspec
  · intro podSpec hb
    have hspec := podSpec?_of_pod a.object podSpec hb
    have heta : a.object = { a.object with body := .pod podSpec } := by
      rw [← hb]
    rcases object_AdmitInMemory l a with h | ⟨_, h⟩ | ⟨t₁, ht₁, _⟩
    · exact ⟨podSpec, by rw [h]; exact heta, rfl, fun _ => rfl⟩
    · refine ⟨l.podSpecAfterAppend, ?_, ?_, ?_⟩
      · rw [h]
        exact storePodSpec_of_pod a.object podSpec _ hb
      · exact initContainers_podSpecAfterAppend l a.object podSpec hd hspec
      · intro hs
        exact podSpecAfterAppend_eq l a.object podSpec hd hs hspec
    · have := body_of_GetPodTemplate_true a.object t₁ ht₁
      rw [hb] at this
      cases this
  · intro hno hs
    rcases object_AdmitInMemory l a with h | ⟨⟨p, hp⟩, h⟩ | ⟨t₁, ht₁, _⟩
    · exact h
    · rcases hs with hs | hs
      · rw [h]
        exact storePodSpec_podSpecAfterAppend l a.object a.object hd hs rfl
      · exact absurd hp (hs p)
    · exact absurd ht₁ (hno t₁)

/-- C12, as stated, fails on a deployment whose labels are the label map of its
template, `Contact=hodor`: created by `admin` it is allowed, and its own
labels hold `contact=hodor` afterwards, which they did not before. -/
theorem Admit_writes_shared_labels :
    layoutSharingLabels.Describes deploymentSharingLabels
    ∧ AdmitInMemory layoutSharingLabels ⟨"admin", .Create, "Deployment", deploymentSharingLabels⟩ =
        ({ labels := some [("Contact", "hodor"), ("contact", "hodor")],
           body := .generic (.struct (.value
             { name := "", labels := some [("Contact", "hodor"), ("contact", "hodor")],
               spec := { initContainers := [],
                         containers := [{ name := "container1",
                                          requests := bothResourcesMap }] } })) },
         Result.allowed)
    ∧ (AdmitInMemory layoutSharingLabels
        ⟨"admin", .Create, "Deployment", deploymentSharingLabels⟩).1.labels ≠
        deploymentSharingLabels.labels :=
  ⟨describes_layoutSharingLabels, rfl, by decide⟩

/-- On the deployment whose labels are the label map of its template the own
labels keep `Contact=hodor`, gain `contact=hodor`, and the containers of the
template stay. -/
theorem AdmitInMemory_frame_witness :
    (AdmitInMemory layoutSharingLabels
        ⟨"admin", .Create, "Deployment", deploymentSharingLabels⟩).1.labels.get? "Contact" =
      some "hodor"
    ∧ (AdmitInMemory layoutSharingLabels
        ⟨"admin", .Create, "Deployment", deploymentSharingLabels⟩).1.labels.get? "contact" =
      some "hodor" :=
  ⟨(AdmitInMemory_frame layoutSharingLabels
      ⟨"admin", .Create, "Deployment", deploymentSharingLabels⟩
      describes_layoutSharingLabels).2.1 "Contact" (by decide),
   (AdmitInMemory_frame layoutSharingLabels
      ⟨"admin", .Create, "Deployment", deploymentSharingLabels⟩
      describes_layoutSharingLabels).2.2.1 rfl rfl (by decide)⟩

/-- C13: `PropagateLabel` with the same value twice gives the template it
gives once, and so the same label map; every key the template had is still a
key after one application and after two, and a key other than `contact` maps
to the same value as before. -/
theorem PropagateLabel_idempotent (t : PodTemplateSpec) (v : String) :
    PropagateLabel (PropagateLabel t v) v = PropagateLabel t v
    ∧ (PropagateLabel (PropagateLabel t v) v).labels = (PropagateLabel t v).labels
    ∧ (∀ k, k ∈ t.labels.keys →
        k ∈ (PropagateLabel t v).labels.keys ∧
        k ∈ (PropagateLabel (PropagateLabel t v) v).labels.keys)
    ∧ (∀ k, k ≠ "contact" →
        (PropagateLabel t v).labels.get? k = t.labels.get? k ∧
        (PropagateLabel (PropagateLabel t v) v).labels.get? k = t.labels.get? k) := by
  have hkeys : ∀ k, k ∈ t.labels.keys → k ∈ (PropagateLabel t v).labels.keys := by
    intro k hk
    rw [(keys_PropagateLabel t v)]
    split
    · exact hk
    · exact List.mem_append_left _ hk
  refine ⟨PropagateLabel_PropagateLabel t v, by rw [PropagateLabel_PropagateLabel], ?_, ?_⟩
  · intro k hk
    rw [PropagateLabel_PropagateLabel]
    exact ⟨hkeys k hk, hkeys k hk⟩
  · intro k hk
    rw [PropagateLabel_PropagateLabel]
    exact ⟨get?_PropagateLabel_of_ne t v k hk, get?_PropagateLabel_of_ne t v k hk⟩

/-- C14: two sequences of containers of the same length whose containers have,
place by place, the same request keys get the same answer from
`HasResourceRequests`, whatever the quantities; a container with `cpu` and
`memory` requests of quantity zero passes. -/
theorem HasResourceRequests_keys_only (xs ys : List Container)
    (h : List.Forall₂ (fun x y => ∀ k, k ∈ x.requests.keys ↔ k ∈ y.requests.keys) xs ys) :
    HasResourceRequests xs = HasResourceRequests ys
    ∧ xs.length = ys.length
    ∧ ∀ name : String,
        HasResourceRequests [⟨name, some [("cpu", 0), ("memory", 0)]⟩] = true := by
  refine ⟨?_, h.length_eq, fun _ => rfl⟩
  rw [HasResourceRequests_eq_all, HasResourceRequests_eq_all]
  induction h with
  | nil => rfl
  | @cons x y xs' ys' hxy _ ih =>
    have hb : hasBothRequests x = hasBothRequests y := by
      have hm := hxy ResourceMemory
      have hc := hxy ResourceCPU
      rw [← GoMap.get?_isSome_iff, ← GoMap.get?_isSome_iff] at hm hc
      simp only [hasBothRequests]
      rw [Bool.eq_iff_iff]
      simp only [Bool.and_eq_true]
      rw [hm, hc]
    simp only [List.all_cons, hb, ih]

/-- Requests of 100 and 200 and requests of zero get the same answer, `true`;
requests of CPU only, of whatever quantity, get the same answer, `false`. -/
theorem HasResourceRequests_keys_only_witness :
    (HasResourceRequests [⟨"first", some [("cpu", 100), ("memory", 200)]⟩] =
        HasResourceRequests [⟨"second", some [("cpu", 0), ("memory", 0)]⟩]
      ∧ HasResourceRequests [⟨"second", some [("cpu", 0), ("memory", 0)]⟩] = true)
    ∧ (HasResourceRequests [⟨"first", some [("cpu", 100)]⟩] =
        HasResourceRequests [⟨"second", some [("cpu", 7)]⟩]
      ∧ HasResourceRequests [⟨"second", some [("cpu", 7)]⟩] = false) :=
  ⟨⟨(HasResourceRequests_keys_only [⟨"first", some [("cpu", 100), ("memory", 200)]⟩]
      [⟨"second", some [("cpu", 0), ("memory", 0)]⟩]
      (List.Forall₂.cons (fun _ => Iff.rfl) List.Forall₂.nil)).1, rfl⟩,
   ⟨(HasResourceRequests_keys_only [⟨"first", some [("cpu", 100)]⟩]
      [⟨"second", some [("cpu", 7)]⟩]
      (List.Forall₂.cons (fun _ => Iff.rfl) List.Forall₂.nil)).1, rfl⟩⟩

/-- C15: for the same user, operation and object, `Admit` does the same under
any two kinds other than `Pod`: the same result with the same reason, and the
same object left behind. -/
theorem Admit_kind_only_pod (userName : String) (op : Operation) (kind₁ kind₂ : String)
    (o : Object) (h₁ : kind₁ ≠ "Pod") (h₂ : kind₂ ≠ "Pod") :
    Admit ⟨userName, op, kind₁, o⟩ = Admit ⟨userName, op, kind₂, o⟩ := by
  simp only [Admit, ne_eq, h₁, h₂, not_false_eq_true, true_and, if_false]

/-- The deployment of `TestAdmission` gets the same treatment under the kinds
`Job`, `Deployment` and `pod`: a denial for missing resource requests. -/
theorem Admit_kind_only_pod_witness :
    Admit ⟨"admin", .Update, "Job", deploymentWithContactNoResources⟩ =
        Admit ⟨"admin", .Update, "Deployment", deploymentWithContactNoResources⟩
    ∧ Admit ⟨"admin", .Update, "Job", deploymentWithContactNoResources⟩ =
        Admit ⟨"admin", .Update, "pod", deploymentWithContactNoResources⟩
    ∧ (Admit ⟨"admin", .Update, "pod", deploymentWithContactNoResources⟩).2 =
        Result.forbidden ("Cannot update this resource. Some containers do not have " ++
          "resource requests specified. Please add resource requests to every container " ++
          "in the pod spec and try again.") :=
  ⟨Admit_kind_only_pod "admin" .Update "Job" "Deployment" deploymentWithContactNoResources
      (by decide) (by decide),
   Admit_kind_only_pod "admin" .Update "Job" "pod" deploymentWithContactNoResources
      (by decide) (by decide),
   rfl⟩

/-- C16: `HasResourceRequests` of two sequences joined is the conjunction of
`HasResourceRequests` of the one and of the other, so the order of the two
does not matter; the answer of `Admit` is the same on a pod, and on a
template, with init-containers and containers swapped, and when `Admit`
reaches the check its answer is decided by the conjunction of the two
checks. -/
theorem HasResourceRequests_distributes_over_append :
    (∀ xs ys : List Container,
        HasResourceRequests (xs ++ ys) = (HasResourceRequests xs && HasResourceRequests ys))
    ∧ (∀ xs ys : List Container,
        HasResourceRequests (xs ++ ys) = HasResourceRequests (ys ++ xs))
    ∧ (∀ (userName : String) (op : Operation) (kind : String) (labels : GoMap String String)
        (inits regulars : List Container),
        (Admit ⟨userName, op, kind, ⟨labels, .pod ⟨inits, regulars⟩⟩⟩).2 =
          (Admit ⟨userName, op, kind, ⟨labels, .pod ⟨regulars, inits⟩⟩⟩).2)
    ∧ (∀ (userName : String) (op : Operation) (kind : String) (labels : GoMap String String)
        (name : String) (templateLabels : GoMap String String)
        (inits regulars : List Container),
        (Admit ⟨userName, op, kind,
            ⟨labels, .generic (.struct (.value ⟨name, templateLabels, ⟨inits, regulars⟩⟩))⟩⟩).2 =
          (Admit ⟨userName, op, kind,
            ⟨labels, .generic (.struct (.value ⟨name, templateLabels, ⟨regulars, inits⟩⟩))⟩⟩).2)
    ∧ (∀ (a : Attributes) (podSpec : PodSpec),
        Contains a.userName "admin" = true → HasContact a.object ≠ "" → a.kind = "Pod" →
        a.object.body = .pod podSpec →
        (Admit a).2 = verdict a.operation
          (HasResourceRequests podSpec.initContainers && HasResourceRequests podSpec.containers))
    ∧ (∀ (a : Attributes) (t : PodTemplateSpec),
        Contains a.userName "admin" = true → HasContact a.object ≠ "" → a.kind ≠ "Pod" →
        GetPodTemplate a.object = some (t, true) →
        (Admit a).2 = verdict a.operation
          (HasResourceRequests t.spec.initContainers && HasResourceRequests t.spec.containers))
    ∧ (∀ op : Operation, verdict op true = Result.allowed ∧
        verdict op false = Result.forbidden ("Cannot " ++ ToLower op.toString ++
          " this resource. Some containers do not have resource requests specified. " ++
          "Please add resource requests to every container in the pod spec and try again.")) := by
  refine ⟨HasResourceRequests_append_eq, HasResourceRequests_append_comm, ?_, ?_, ?_, ?_,
    fun _ => ⟨rfl, rfl⟩⟩
  · intro userName op kind labels inits regulars
    rw [Admit_result_on_pod, Admit_result_on_pod]
    simp only [HasContact, HasResourceRequests_append_comm inits regulars]
  · intro userName op kind labels name templateLabels inits regulars
    rw [Admit_result_on_template, Admit_result_on_template]
    simp only [HasContact, HasResourceRequests_append_comm inits regulars]
  · intro a podSpec hadmin hcontact hkind hpod
    rw [Admit_on_pod a podSpec hadmin hcontact hkind hpod, HasResourceRequests_append_eq]
  · intro a t hadmin hcontact hkind htemplate
    rw [Admit_with_template a t hadmin hcontact hkind htemplate, HasResourceRequests_append_eq]

/-- C18: after `PropagateLabel` with the value `v` on a template none of whose
label keys but `contact` itself is `contact` in lower case, the loop of
`HasContact` over the labels of the template gives `v`, in the order of the
entries and, the keys being distinct, in every order of visit; on a template
labelled `Contact=w` the labels afterwards hold both `Contact` and `contact`,
and the loop gives `w` in one order of visit and `v` in another. -/
theorem PropagateLabel_read_back :
    (∀ (t : PodTemplateSpec) (v : String),
        (∀ e ∈ t.labels.entries, ToLower e.1 = "contact" → e.1 = "contact") →
        contactOf (PropagateLabel t v).labels.entries = v)
    ∧ (∀ (t : PodTemplateSpec) (v : String) (visited : List (String × String)),
        t.labels.WF →
        (∀ e ∈ t.labels.entries, ToLower e.1 = "contact" → e.1 = "contact") →
        visited.Perm (PropagateLabel t v).labels.entries →
        contactOf visited = v)
    ∧ (∀ (name : String) (podSpec : PodSpec) (w v : String),
        (PropagateLabel ⟨name, some [("Contact", w)], podSpec⟩ v).labels =
          some [("Contact", w), ("contact", v)]
        ∧ ∃ visited₁ visited₂ : List (String × String),
          visited₁.Perm (PropagateLabel ⟨name, some [("Contact", w)], podSpec⟩ v).labels.entries
          ∧ visited₂.Perm (PropagateLabel ⟨name, some [("Contact", w)], podSpec⟩ v).labels.entries
          ∧ contactOf visited₁ = w ∧ contactOf visited₂ = v) := by
  refine ⟨?_, ?_, ?_⟩
  · intro t v h
    have : (PropagateLabel t v).labels.entries = assignEntries t.labels.entries "contact" v := by
      cases hl : t.labels <;> simp [PropagateLabel, GoMap.entries, hl]
    rw [this]
    exact contactOf_assignEntries _ _ h
  · intro t v visited hwf h hperm
    have hent : (PropagateLabel t v).labels.entries =
        assignEntries t.labels.entries "contact" v := by
      cases hl : t.labels <;> simp [PropagateLabel, GoMap.entries, hl]
    have hnodup : (t.labels.entries.map Prod.fst).Nodup := by
      cases hl : t.labels with
      | none => simp [GoMap.entries]
      | some es =>
        rw [hl] at hwf
        exact hwf
    rw [hent] at hperm
    exact contactOf_of_perm_unique _ visited "contact" v
      (filter_assignEntries _ v hnodup h) hperm
  · intro name podSpec w v
    refine ⟨rfl, [("Contact", w), ("contact", v)], [("contact", v), ("Contact", w)],
      List.Perm.refl _, List.Perm.swap _ _ _, rfl, rfl⟩

/-- On a template labelled `app=train`, `project=infra` the contact `hodor`
reads back in the order of the entries and in another; on a template labelled
`Contact=bran` it reads back as `bran` in one order and as `hodor` in the
other. -/
theorem PropagateLabel_read_back_witness :
    contactOf (PropagateLabel ⟨"", some [("app", "train"), ("project", "infra")],
        ⟨[], []⟩⟩ "hodor").labels.entries = "hodor"
    ∧ contactOf [("contact", "hodor"), ("project", "infra"), ("app", "train")] = "hodor"
    ∧ contactOf [("Contact", "bran"), ("contact", "hodor")] = "bran"
    ∧ contactOf [("contact", "hodor"), ("Contact", "bran")] = "hodor" :=
  ⟨PropagateLabel_read_back.1 ⟨"", some [("app", "train"), ("project", "infra")], ⟨[], []⟩⟩
      "hodor" (by decide),
   PropagateLabel_read_back.2.1 ⟨"", some [("app", "train"), ("project", "infra")], ⟨[], []⟩⟩
      "hodor" [("contact", "hodor"), ("project", "infra"), ("app", "train")]
      (by simp [GoMap.WF, GoMap.keys]) (by decide) (by decide),
   rfl, rfl⟩

end specrequirements
